import Mathlib

/-!
Verification of the report aggregation pipeline of the API test-report
repository: the execution-record normalizer and suite aggregations of
`scripts/make-suite-report.js`, and the combined-report aggregator of
`scripts/cleanup-temp.js` (the `combine-email-report` part).

JavaScript values are shallowly embedded: strings are `List Char`,
absent/undefined values are `Option`, numbers arising in the verified
claims are `Nat` (all are non-negative integers in the source), and the
concrete regular expressions of the source are modelled by executable
matching functions specialised to those patterns.
-/

/-- JavaScript strings are modelled as lists of characters. -/
abbrev JsStr := List Char

/-- Conversion from a Lean string literal to the character-list model. -/
def js (s : String) : JsStr := s.toList

/-- ASCII lower-casing of one character.  Models JavaScript case-insensitive
regex matching (the `i` flag) and `String.prototype.toLowerCase` on the
ASCII data this development manipulates. -/
def lowerA (c : Char) : Char :=
  if 'A' ≤ c ∧ c ≤ 'Z' then Char.ofNat (c.toNat + 32) else c

/-- Decimal digit predicate, modelling the regex class `\d`. -/
def isDig (c : Char) : Bool := decide ('0' ≤ c) && decide (c ≤ '9')

/-- Numeric value of a decimal digit character. -/
def digVal (c : Char) : Nat := c.toNat - 48

/-- Decimal digit character for a value below ten. -/
def decCh (d : Nat) : Char :=
  match d with
  | 0 => '0' | 1 => '1' | 2 => '2' | 3 => '3' | 4 => '4'
  | 5 => '5' | 6 => '6' | 7 => '7' | 8 => '8' | _ => '9'

/-- JavaScript whitespace (regex `\s`, `String.prototype.trim`), restricted to
the whitespace characters that can occur in this development's data. -/
def isJsWs (c : Char) : Bool :=
  decide (c = ' ') || decide (c = '\t') || decide (c = '\n') || decide (c = '\r') ||
  decide (c = '\x0b') || decide (c = '\x0c') || decide (c = ' ')

/-- Line terminators excluded by the regex metacharacter `.` in JavaScript. -/
def isNL (c : Char) : Bool :=
  decide (c = '\n') || decide (c = '\r') || decide (c = ' ') || decide (c = ' ')

/-- Word character, the regex class `\w` used by the `\b` boundary assertion. -/
def isWordChar (c : Char) : Bool :=
  (decide ('A' ≤ c) && decide (c ≤ 'Z')) || (decide ('a' ≤ c) && decide (c ≤ 'z')) ||
  isDig c || decide (c = '_')

/-- Case-insensitive literal-prefix matcher: strips `lit` (up to ASCII case)
from the front of the input, returning the remainder. -/
def stripPrefixCI : JsStr → JsStr → Option JsStr
  | [], s => some s
  | _ :: _, [] => none
  | l :: ls, c :: cs => if lowerA c = lowerA l then stripPrefixCI ls cs else none

/-- Case-insensitive substring test, modelling `RegExp.prototype.test` for a
plain-literal pattern with the `i` flag. -/
def containsCI (pat : JsStr) : JsStr → Bool
  | [] => (stripPrefixCI pat []).isSome
  | c :: cs => (stripPrefixCI pat (c :: cs)).isSome || containsCI pat cs

/-- Fueled little-endian digit extraction; any fuel of at least `n` is exact
(each step divides `n` by ten).  The fuel makes the definition reduce by
structural recursion, so concrete witnesses can be checked by evaluation. -/
def natDigitsRevFuel : Nat → Nat → List Char
  | 0, _ => []
  | fuel + 1, n => if n = 0 then [] else decCh (n % 10) :: natDigitsRevFuel fuel (n / 10)

/-- Little-endian decimal digits of a natural number (empty for zero). -/
def natDigitsRev (n : Nat) : List Char := natDigitsRevFuel n n

/-- Decimal rendering of a natural number, modelling JavaScript number-to-string
conversion for the non-negative integers of this development. -/
def natDigits (n : Nat) : JsStr :=
  if n = 0 then ['0'] else (natDigitsRev n).reverse

/-- Value of a big-endian digit string, modelling `Number(...)` on the digit
strings produced by the verified parsers. -/
def decVal (ds : JsStr) : Nat := ds.foldl (fun a c => a * 10 + digVal c) 0

/-- Fueled three-digit grouping; any fuel of at least the list length is
exact (each step drops three characters). -/
def groupRevFuel : Nat → List Char → List Char
  | 0, ds => ds
  | fuel + 1, ds =>
    if ds.length ≤ 3 then ds
    else ds.take 3 ++ ',' :: groupRevFuel fuel (ds.drop 3)

/-- Inserts a `,` after every three characters of a little-endian digit list,
the grouping step of `Number.prototype.toLocaleString` (default locale). -/
def groupRev (ds : List Char) : List Char := groupRevFuel ds.length ds

/-- Models the source helper `fmt` on a finite non-negative number:
`n.toLocaleString()` under the default `en-US` locale, i.e. decimal digits
with a comma between three-digit groups. -/
def fmtNat (n : Nat) : JsStr := (groupRev (natDigits n).reverse).reverse

/-- Removal of thousands separators, modelling `String(x).replace(/,/g, "")`. -/
def stripCommas (s : JsStr) : JsStr := s.filter (fun c => !(decide (c = ',')))

/-- One-character expansion used by the source helper `esc`.  The source
applies five chained `replace` calls (`&`, `<`, `>`, `"`, `'` in that order);
because no replacement string contains a character that a later replacement
rewrites except the initial `&` (already processed first), the chain is
equivalent to this single character map applied once. -/
def escCh (c : Char) : JsStr :=
  if c = '&' then js ("&amp;")
  else if c = '<' then js ("&lt;")
  else if c = '>' then js ("&gt;")
  else if c = '"' then js ("&quot;")
  else if c = '\'' then js ("&#39;")
  else [c]

/-- HTML escaping helper `esc` of both scripts. -/
def esc (s : JsStr) : JsStr := (s.map escCh).flatten

/-- Lower-case alphanumeric predicate (regex class `[a-z0-9]`). -/
def isLowAlnum (c : Char) : Bool := (decide ('a' ≤ c) && decide (c ≤ 'z')) || isDig c

/-- Run-collapsing core of `idfy`: replaces every maximal run of characters
outside `[a-z0-9]` by a single `-` (the flag records whether the previous
emitted character closed such a run). -/
def idfyAux (prevDash : Bool) : List Char → List Char
  | [] => []
  | c :: cs =>
    if isLowAlnum c then c :: idfyAux false cs
    else if prevDash then idfyAux true cs
    else '-' :: idfyAux true cs

/-- Source helper `idfy`: lower-case, replace `[^a-z0-9]+` runs by `-`, then
drop one leading and one trailing `-` (the regex `/(^-|-$)/g`). -/
def idfy (s : JsStr) : JsStr :=
  let t := idfyAux false (s.map lowerA)
  let t2 := if t.head? = some '-' then t.tail else t
  if t2.getLast? = some '-' then t2.dropLast else t2

/-- Left trim by JavaScript whitespace. -/
def trimL (s : JsStr) : JsStr := s.dropWhile isJsWs

/-- Right trim by JavaScript whitespace. -/
def trimR (s : JsStr) : JsStr := (s.reverse.dropWhile isJsWs).reverse

/-- Models `String.prototype.trim`. -/
def jsTrim (s : JsStr) : JsStr := trimL (trimR s)

/-- Match of the anchored regex `^SC_\d+_` followed by removal of the matched
prefix (`String.prototype.replace` with an anchored pattern). -/
def stripSC (s : JsStr) : JsStr :=
  match s with
  | 'S' :: 'C' :: '_' :: rest =>
    let ds := rest.takeWhile isDig
    let tl := rest.dropWhile isDig
    if ds.isEmpty then s
    else
      match tl with
      | '_' :: r2 => r2
      | _ => s
  | _ => s

/-- Source helper `pretty`: strip an `SC_<n>_` prefix, turn underscores into
spaces, trim, and fall back to `Untitled` when the result is empty. -/
def pretty (s : JsStr) : JsStr :=
  let t := jsTrim ((stripSC s).map (fun c => if c = '_' then ' ' else c))
  if t.isEmpty then js ("Untitled") else t

/-- Models `String.prototype.padStart(3, "0")`. -/
def padStart3 (s : JsStr) : JsStr := List.replicate (3 - s.length) '0' ++ s

/-! ## Execution Record Normalizer (make-suite-report.js, `testCases`) -/

/-- Shape of a recorded assertion error (`a.error`). -/
structure JsError where
  test : Option JsStr
  name : Option JsStr
  message : Option JsStr
  stack : Option JsStr
deriving DecidableEq

/-- Shape of one entry of `ex.assertions`. -/
structure RawAssertion where
  assertion : Option JsStr
  error : Option JsError
deriving DecidableEq

/-- Shape of `ex.response`, restricted to the fields the verified claims
exercise (`code`, `status`, `responseTime`).  A `none` `responseTime` also
models a non-finite value, which the source rejects via `Number.isFinite`. -/
structure RawResponse where
  code : Option Nat
  status : Option JsStr
  responseTime : Option Nat
deriving DecidableEq

/-- Shape of one raw execution entry.  The request/response snapshot inputs
(`ex.request`, response body/headers) are not modelled: their capture feeds
only the base64 payload blobs, on which no verified claim depends. -/
structure ExecEntry where
  itemName : Option JsStr
  assertions : List RawAssertion
  response : Option RawResponse
  cursorIteration : Option Nat
deriving DecidableEq

/-- JavaScript `x || y` where `x` is a possibly-absent string: the fallback is
taken when `x` is `undefined` or the empty string. -/
def jsStrOr (a : Option JsStr) (b : JsStr) : JsStr :=
  match a with
  | some s => if s.isEmpty then b else s
  | none => b

/-- Normalized assertion record (`checks` entry of a test case). -/
structure Check where
  name : JsStr
  ok : Bool
  message : JsStr
deriving DecidableEq

/-- The `checks` mapping of the source:
`name: a.assertion || a.error?.test || a.error?.name || 'Assertion'`,
`ok: !a.error`, and
`message: a.error ? String(a.error?.message || a.error?.stack || '').trim() : 'OK'`. -/
def checkOfAssertion (a : RawAssertion) : Check :=
  { name := jsStrOr a.assertion
      (jsStrOr (a.error.bind (·.test))
        (jsStrOr (a.error.bind (·.name)) (js ("Assertion"))))
    ok := a.error.isNone
    message :=
      match a.error with
      | some e => jsTrim (jsStrOr e.message (jsStrOr e.stack []))
      | none => js ("OK") }

/-- The four outcome values of the source's `result` strings
(`'Pass' | 'Fail' | 'Skipped' | 'Not Run'`). -/
inductive TCResult
  | Pass
  | Fail
  | Skipped
  | NotRun
deriving DecidableEq

/-- Occurrence of the word-bounded pattern `skip` starting at the current
position: the prefix `skip` matches case-insensitively and both `\b`
assertions hold (the previous and following characters, when present, are not
word characters). -/
def skipAtBoundary (prev : Option Char) (next : Option Char) : Bool :=
  !(prev.any isWordChar) && !(next.any isWordChar)

/-- Scanning core for the regex `/\bskip\b/i`: tries every start position,
tracking the previous character for the leading boundary assertion. -/
def hasWordSkipAux (prev : Option Char) : JsStr → Bool
  | [] => false
  | c :: cs =>
    (match stripPrefixCI (js ("skip")) (c :: cs) with
     | some rest => skipAtBoundary prev rest.head?
     | none => false)
    || hasWordSkipAux (some c) cs

/-- Models `/\bskip\b/i.test(s)`. -/
def hasWordSkip (s : JsStr) : Bool := hasWordSkipAux none s

/-- Normalized test case.  The base64 request/response payload fields
(`reqB64`, `resB64`) of the source object are not modelled (see `ExecEntry`);
rendering functions that display them take them as explicit arguments. -/
structure TestCase where
  id : JsStr
  group : JsStr
  api : JsStr
  iteration : Nat
  tcId : JsStr
  result : TCResult
  checksPassed : Nat
  checksFailed : Nat
  checksTotal : Nat
  statusCode : Option Nat
  respMs : Option Nat
  checks : List Check
deriving DecidableEq

/-- Characters of a string before the first separator, modelling
`s.split(sep)[0]`. -/
def splitFirst (sep : Char) (s : JsStr) : JsStr := s.takeWhile (fun c => !(decide (c = sep)))

/-- The per-execution body of `execs.map(ex => ...)` in make-suite-report.js
(lines 117-167).  A `none` argument models a null/missing entry of the
executions array.  The function is total: no input raises. -/
def testCaseOf (ex : Option ExecEntry) : TestCase :=
  let assertions := match ex with | some e => e.assertions | none => []
  let total := assertions.length
  let failed := (assertions.filter (fun a => a.error.isSome)).length
  let passed := total - failed
  let statusCode := ex.bind (fun e => e.response.bind (·.code))
  let respMs := ex.bind (fun e => e.response.bind (·.responseTime))
  let checks := assertions.map checkOfAssertion
  let isSkip := checks.any (fun c => hasWordSkip c.name || hasWordSkip c.message)
  let result :=
    if ex.isNone then TCResult.NotRun
    else if isSkip then TCResult.Skipped
    else if 0 < failed then TCResult.Fail
    else TCResult.Pass
  let api := jsStrOr (ex.bind (·.itemName)) (js ("Request"))
  let group := jsStrOr (some (splitFirst '/' api)) (js ("Ungrouped"))
  let iter := (match ex with | some e => e.cursorIteration.getD 0 | none => 0) + 1
  { id := idfy (api ++ '-' :: natDigits iter)
    group := group
    api := api
    iteration := iter
    tcId := js ("TC") ++ padStart3 (natDigits iter)
    result := result
    checksPassed := passed
    checksFailed := failed
    checksTotal := total
    statusCode := statusCode
    respMs := respMs
    checks := checks }

/-- The `testCases` array: the normalizer applied to every execution entry. -/
def testCasesOf (execs : List (Option ExecEntry)) : List TestCase :=
  execs.map testCaseOf

/-- Membership in the `considered` filter (`result === 'Pass' || result === 'Fail'`). -/
def isConsidered (tc : TestCase) : Bool :=
  decide (tc.result = TCResult.Pass) || decide (tc.result = TCResult.Fail)

/-- The `considered` array of make-suite-report.js (line 170). -/
def consideredOf (cases : List TestCase) : List TestCase := cases.filter isConsidered

/-- Models `Math.round(num / den)` for non-negative integers and positive
`den`: the floor of `num/den + 1/2`. -/
def jsRoundDiv (num den : Nat) : Nat := (2 * num + den) / (2 * den)

/-- Models `Math.round(100 * num / den)`. -/
def roundPct (num den : Nat) : Nat := jsRoundDiv (100 * num) den

/-- Suite-level aggregates of make-suite-report.js lines 170-176. -/
structure SuiteAgg where
  totalCases : Nat
  passedCases : Nat
  failedCases : Nat
  passPct : Nat
  withinSLA : Nat
  withinPct : Nat
deriving DecidableEq

/-- The suite-level aggregation (lines 170-176): `considered` counts, rounded
pass percentage, and the SLA tally over cases with a finite response time. -/
def suiteAggOf (execs : List (Option ExecEntry)) (slaMs : Nat) : SuiteAgg :=
  let cases := testCasesOf execs
  let considered := consideredOf cases
  let totalCases := considered.length
  let passedCases := (considered.filter (fun t => decide (t.result = TCResult.Pass))).length
  let failedCases := (considered.filter (fun t => decide (t.result = TCResult.Fail))).length
  let passPct := if totalCases = 0 then 0 else roundPct passedCases totalCases
  let withinSLA := (considered.filter (fun t =>
    match t.respMs with
    | some m => decide (m ≤ slaMs)
    | none => false)).length
  let withinPct := if totalCases = 0 then 0 else roundPct withinSLA totalCases
  ⟨totalCases, passedCases, failedCases, passPct, withinSLA, withinPct⟩

/-! ## Folder aggregation (make-suite-report.js, `byFolder` / `folderRows`) -/

/-- Accumulator entry of the `byFolder` map. -/
structure FolderAcc where
  group : JsStr
  total : Nat
  pass : Nat
  fail : Nat
  resp : List Nat
  apis : List TestCase
deriving DecidableEq

/-- The per-case mutation of a `byFolder` entry (lines 183-185): increment
`total`, increment `pass` exactly when the result is `Pass` and `fail`
otherwise, append a finite response time, and record the case. -/
def accUpdate (tc : TestCase) (a : FolderAcc) : FolderAcc :=
  { a with
    total := a.total + 1
    pass := if tc.result = TCResult.Pass then a.pass + 1 else a.pass
    fail := if tc.result = TCResult.Pass then a.fail else a.fail + 1
    resp := match tc.respMs with | some m => a.resp ++ [m] | none => a.resp
    apis := a.apis ++ [tc] }

/-- Group key of a considered case (`tc.group || 'Ungrouped'`). -/
def groupKeyOf (tc : TestCase) : JsStr :=
  if tc.group.isEmpty then js ("Ungrouped") else tc.group

/-- Insertion-ordered map update, modelling `byFolder.get`/`byFolder.set` on a
JavaScript `Map` (string keys, insertion order preserved). -/
def mapUpsert (m : List FolderAcc) (g : JsStr) (tc : TestCase) : List FolderAcc :=
  match m with
  | [] => [accUpdate tc { group := g, total := 0, pass := 0, fail := 0, resp := [], apis := [] }]
  | a :: rest => if a.group = g then accUpdate tc a :: rest else a :: mapUpsert rest g tc

/-- The `byFolder` map after folding all considered cases (lines 179-187). -/
def byFolderOf (considered : List TestCase) : List FolderAcc :=
  considered.foldl (fun m tc => mapUpsert m (groupKeyOf tc) tc) []

/-- Models the source helper `avg`: `Math.round` of the arithmetic mean, `0`
for an empty list. -/
def avgJs (l : List Nat) : Nat := if l.isEmpty then 0 else jsRoundDiv l.sum l.length

/-- Display row of the folder-summary table. -/
structure FolderRow where
  group : JsStr
  pretty : JsStr
  total : Nat
  pass : Nat
  fail : Nat
  passPct : Nat
  avgMs : Nat
  apis : List TestCase
deriving DecidableEq

/-- The per-folder row mapping of `folderRows` (lines 188-193). -/
def folderRowOfAcc (a : FolderAcc) : FolderRow :=
  { group := a.group
    pretty := pretty a.group
    total := a.total
    pass := a.pass
    fail := a.fail
    passPct := if a.total = 0 then 0 else roundPct a.pass a.total
    avgMs := avgJs a.resp
    apis := a.apis }

/-- The `folderRows` array (lines 188-194).  The source additionally sorts
the rows by a locale comparison of the pretty names — a permutation for
display only, on which no verified claim depends; the sort is omitted. -/
def folderRowsOf (considered : List TestCase) : List FolderRow :=
  (byFolderOf considered).map folderRowOfAcc

/-- Insertion-ordered set insertion, modelling `Set.prototype.add`. -/
def addUnique (l : List JsStr) (x : JsStr) : List JsStr :=
  if x ∈ l then l else l ++ [x]

/-- The `suiteApiSet` of make-suite-report.js (lines 198-202): the deduplicated
pretty API names of the considered cases, in first-occurrence order. -/
def suiteApisOf (considered : List TestCase) : List JsStr :=
  considered.foldl
    (fun s tc => addUnique s (pretty (if tc.api.isEmpty then js ("Request") else tc.api))) []

/-! ## Concrete suite scenarios (claims C1, C2, C8) -/
/-- Passing assertion used by the scenario inputs. -/
def aOk1 : RawAssertion := ⟨some (js ("Status code is 200")), none⟩
/-- Second passing assertion used by the scenario inputs. -/
def aOk2 : RawAssertion := ⟨some (js ("Body has id")), none⟩
/-- Failing assertion (a recorded error) used by the scenario inputs. -/
def aErr : RawAssertion :=
  ⟨some (js ("Status code is 200")), some ⟨none, none, some (js ("expected 200 but got 500")), none⟩⟩
/-- Scenario execution (a): two passing assertions, response time 400 ms. -/
def entryA : ExecEntry :=
  ⟨some (js ("Users/Get Users")), [aOk1, aOk2], some ⟨some 200, some (js ("OK")), some 400⟩, some 0⟩
/-- Scenario execution (b): one failing assertion, response time 1500 ms. -/
def entryB : ExecEntry :=
  ⟨some (js ("Users/Create User")), [aErr], some ⟨some 500, none, some 1500⟩, some 0⟩
/-- Scenario execution (c) as the claim states it: a present execution entry
with no assertions and no response object. -/
def entryC : ExecEntry :=
  ⟨some (js ("Users/Ping")), [], none, some 0⟩
/-- The raw executions of the C1 scenario exactly as claimed: three present
entries (a), (b), (c). -/
def claimExecsC1 : List (Option ExecEntry) := [some entryA, some entryB, some entryC]
/-- The raw executions of the amended C1 scenario: entries (a) and (b) as
before, and a null third entry in the executions sequence. -/
def amendedExecsC1 : List (Option ExecEntry) := [some entryA, some entryB, none]
/-- Execution entry whose single assertion is named `skipped` (which contains
the substring `skip` but has no word-boundary occurrence of `skip`) and
carries a recorded error. -/
def cexEntryC2 : ExecEntry :=
  ⟨some (js ("Users/Delete User")),
   [⟨some (js ("skipped")), some ⟨none, none, some (js ("timeout reached")), none⟩⟩],
   none, some 0⟩
/-- Entry witnessing the amended C2: one assertion carries an error and
another is named `skip auth check` (word-bounded `skip`). -/
def witEntryC2 : ExecEntry :=
  ⟨some (js ("Users/Delete User")),
   [⟨some (js ("Status code is 200")), some ⟨none, none, some (js ("expected 200")), none⟩⟩,
    ⟨some (js ("skip auth check")), none⟩],
   none, some 0⟩

/-! ## Combined Report Aggregator (cleanup-temp.js, combine-email-report part) -/

/-- Lazy any-character capture up to the first case-insensitive occurrence of
`lit`, modelling the regex fragment `([\s\S]*?)lit`: the shortest prefix (any
characters, line terminators included) after which `lit` matches, returned
together with the remainder after `lit`. -/
def uptoLitAnyCI (lit : JsStr) : JsStr → Option (JsStr × JsStr)
  | [] => (stripPrefixCI lit []).map (fun rest => (([] : JsStr), rest))
  | c :: cs =>
    match stripPrefixCI lit (c :: cs) with
    | some rest => some ([], rest)
    | none => (uptoLitAnyCI lit cs).map (fun pr => (c :: pr.1, pr.2))

/-- Lazy single-line capture up to the first case-insensitive occurrence of
`lit`, modelling the regex fragment `(.*?)lit`: as `uptoLitAnyCI` but failing
if a line terminator (which `.` does not match) is reached first. -/
def uptoLitCI (lit : JsStr) : JsStr → Option (JsStr × JsStr)
  | [] => (stripPrefixCI lit []).map (fun rest => (([] : JsStr), rest))
  | c :: cs =>
    match stripPrefixCI lit (c :: cs) with
    | some rest => some ([], rest)
    | none =>
      if isNL c then none
      else (uptoLitCI lit cs).map (fun pr => (c :: pr.1, pr.2))

/-- Models the regex fragment `[^>]*>`: skip to just past the first `>`.
Backtracking cannot produce any other outcome, since `[^>]*` never matches
`>` itself. -/
def skipToGt : JsStr → Option JsStr
  | [] => none
  | c :: cs => if c = '>' then some cs else skipToGt cs

/-- Match of the regex fragment `id=["']suite-apis["']` (case-insensitive) at
the current position, returning the remainder. -/
def stripIdSuiteApis (s : JsStr) : Option JsStr :=
  match stripPrefixCI (js ("id=")) s with
  | none => none
  | some r1 =>
    match r1 with
    | q1 :: r2 =>
      if q1 = '"' ∨ q1 = '\'' then
        match stripPrefixCI (js ("suite-apis")) r2 with
        | none => none
        | some r3 =>
          match r3 with
          | q2 :: r4 => if q2 = '"' ∨ q2 = '\'' then some r4 else none
          | [] => none
      else none
    | [] => none

/-- Search for `id=["']suite-apis["']` inside one tag, i.e. before the first
`>`, modelling `<script[^>]*id=["']suite-apis["']`.  This takes the leftmost
occurrence inside the tag where the source's greedy `[^>]*` with backtracking
takes the rightmost; the two coincide whenever a tag holds at most one
occurrence, which is the case for the builder's rendered documents. -/
def scanTagForId : JsStr → Option JsStr
  | [] => none
  | c :: cs =>
    match stripIdSuiteApis (c :: cs) with
    | some rest => some rest
    | none => if c = '>' then none else scanTagForId cs

/-- Attempted match, at the current position, of the full registry regex of
`extractSuiteApis`:
`<script[^>]*id=["']suite-apis["'][^>]*>([\s\S]*?)<\/script>`, returning the
captured JSON text. -/
def matchSuiteApisAt (s : JsStr) : Option JsStr :=
  match stripPrefixCI (js ("<script")) s with
  | none => none
  | some r1 =>
    match scanTagForId r1 with
    | none => none
    | some r2 =>
      match skipToGt r2 with
      | none => none
      | some r3 => (uptoLitAnyCI (js ("</script>")) r3).map (fun pr => pr.1)

/-- First match of the registry regex anywhere in the document
(`String.prototype.match` without the `g` flag), yielding its capture. -/
def findSuiteApisJson : JsStr → Option JsStr
  | [] => none
  | c :: cs =>
    match matchSuiteApisAt (c :: cs) with
    | some cap => some cap
    | none => findSuiteApisJson cs

/-- Escape of one character inside a JSON string literal, as emitted by
`JSON.stringify`.  Control characters other than the three named ones would be
`\u00XX`-escaped by the source; they are left unescaped here, and every
verified statement about JSON round-trips restricts itself to characters this
function leaves unescaped. -/
def jsonEscCh (c : Char) : JsStr :=
  if c = '"' then ['\\', '"']
  else if c = '\\' then ['\\', '\\']
  else if c = '\n' then ['\\', 'n']
  else if c = '\r' then ['\\', 'r']
  else if c = '\t' then ['\\', 't']
  else [c]

/-- JSON string literal for one string value. -/
def jsonStr (s : JsStr) : JsStr := '"' :: (s.map jsonEscCh).flatten ++ ['"']

/-- Models `JSON.stringify` on an array of strings (no indentation argument:
no inserted whitespace). -/
def jsonStringifyStrList (l : List JsStr) : JsStr :=
  '[' :: (match l with
    | [] => []
    | x :: xs => jsonStr x ++ (xs.map (fun s => ',' :: jsonStr s)).flatten) ++ [']']

/-- Unescape of one JSON escape character (the escapes `JSON.parse` accepts
that this development needs; `\b`, `\f` and `\uXXXX` are rejected, which
only narrows the modelled parser, never the verified statements). -/
def jsonUnescCh (e : Char) : Option Char :=
  if e = '"' then some '"'
  else if e = '\\' then some '\\'
  else if e = '/' then some '/'
  else if e = 'n' then some '\n'
  else if e = 'r' then some '\r'
  else if e = 't' then some '\t'
  else none

/-- Parse of the body of a JSON string literal (after the opening quote), up
to and including the closing quote. -/
def parseJsonStringBody : JsStr → Option (JsStr × JsStr)
  | [] => none
  | c :: rest =>
    if c = '"' then some ([], rest)
    else if c = '\\' then
      match rest with
      | [] => none
      | e :: rest2 =>
        match jsonUnescCh e with
        | some d => (parseJsonStringBody rest2).map (fun pr => (d :: pr.1, pr.2))
        | none => none
    else (parseJsonStringBody rest).map (fun pr => (c :: pr.1, pr.2))

/-- JSON insignificant whitespace. -/
def isJsonWs (c : Char) : Bool :=
  decide (c = ' ') || decide (c = '\t') || decide (c = '\n') || decide (c = '\r')

/-- Parse of the remaining items of a JSON string array after the first item:
a sequence of comma-separated string literals terminated by `]`.  The fuel
argument bounds the number of items; each item consumes at least one
character, so any fuel of at least the input length is sufficient. -/
def parseJsonStrsLoop : Nat → JsStr → Option (List JsStr × JsStr)
  | 0, _ => none
  | fuel + 1, s =>
    match s.dropWhile isJsonWs with
    | ']' :: r => some ([], r)
    | ',' :: r =>
      (match r.dropWhile isJsonWs with
       | '"' :: r2 =>
         match parseJsonStringBody r2 with
         | some (str, r3) =>
           (parseJsonStrsLoop fuel r3).map (fun pr => (str :: pr.1, pr.2))
         | none => none
       | _ => none)
    | _ => none

/-- Models `JSON.parse` on a document that is a JSON array of strings,
rejecting trailing garbage; any other document yields `none` (the source
catches the raised error and returns `[]`). -/
def jsonParseStrList (s : JsStr) : Option (List JsStr) :=
  match s.dropWhile isJsonWs with
  | '[' :: r =>
    (match r.dropWhile isJsonWs with
     | ']' :: r2 => if (r2.dropWhile isJsonWs).isEmpty then some [] else none
     | '"' :: r2 =>
       (match parseJsonStringBody r2 with
        | some (str, r3) =>
          (match parseJsonStrsLoop (r3.length + 1) r3 with
           | some (strs, r4) =>
             if (r4.dropWhile isJsonWs).isEmpty then some (str :: strs) else none
           | none => none)
        | none => none)
     | _ => none)
  | _ => none

/-- The aggregator's `extractSuiteApis` (cleanup-temp.js lines 117-127): first
regex match of the hidden registry block, JSON-parsed, each entry trimmed,
empty entries dropped; `[]` on no match or parse failure. -/
def extractSuiteApis (htmlText : JsStr) : List JsStr :=
  match findSuiteApisJson htmlText with
  | none => []
  | some cap =>
    match jsonParseStrList cap with
    | none => []
    | some arr => (arr.map jsTrim).filter (fun s => !s.isEmpty)

/-- The builder's hidden registry block (make-suite-report.js line 403):
`<script type="application/json" id="suite-apis">` followed by the JSON
serialization of the suite's API-name set and the closing tag. -/
def renderSuiteApisBlock (names : List JsStr) : JsStr :=
  js ("<script type=\"application/json\" id=\"suite-apis\">") ++
    jsonStringifyStrList names ++ js ("</script>")

/-- One parsed folder/API summary row of `parseSuiteRows`.  The numeric
fields model `Number(...)` of the regex captures, which on builder-rendered
documents are the non-negative integers verified below. -/
structure Row where
  parent : JsStr
  module : JsStr
  api : JsStr
  pass : Nat
  fail : Nat
  total : Nat
  passPct : Nat
  avg : Nat
deriving DecidableEq

/-- The aggregation key `` `${r.parent}|${r.module}|${r.api}` ``. -/
def rowKey (r : Row) : JsStr := r.parent ++ '|' :: r.module ++ '|' :: r.api

/-- Accumulated sums per aggregation key. -/
structure ApiAcc where
  passSum : Nat
  failSum : Nat
  totalSum : Nat
deriving DecidableEq

/-- Insertion-ordered update of the `keyMap` of `aggregateApiStatsFromRows`
(`r.pass || 0` is the identity here since the modelled numbers are `Nat`). -/
def keyMapUpsert (m : List (JsStr × ApiAcc)) (k : JsStr) (r : Row) : List (JsStr × ApiAcc) :=
  match m with
  | [] => [(k, ⟨r.pass, r.fail, r.total⟩)]
  | (k2, a) :: rest =>
    if k2 = k then (k2, ⟨a.passSum + r.pass, a.failSum + r.fail, a.totalSum + r.total⟩) :: rest
    else (k2, a) :: keyMapUpsert rest k r

/-- The `keyMap` of `aggregateApiStatsFromRows` after folding all rows
(cleanup-temp.js lines 208-216). -/
def apiKeyMapOf (rows : List Row) : List (JsStr × ApiAcc) :=
  rows.foldl (fun m r => keyMapUpsert m (rowKey r) r) []

/-- Models `pctStr`'s numeric part: `Math.round((num/den)*100)` when the
denominator is positive, else the literal `0` of `"0%"`. -/
def pctOf (num den : Nat) : Nat := if 0 < den then roundPct num den else 0

/-- Result record of `aggregateApiStatsFromRows`; `ratePct` models the numeric
part of the rendered `rate` string. -/
structure ApiStats where
  unique : Nat
  passed : Nat
  failed : Nat
  ratePct : Nat
deriving DecidableEq

/-- The aggregator's `aggregateApiStatsFromRows` (lines 207-223): per-key
pass/fail/total sums; `unique` is the key count; a key counts `passed` only
when its summed total is positive and its summed fail count is exactly zero;
`failed = Math.max(0, unique - passed)`, which is truncated subtraction. -/
def aggregateApiStatsFromRows (rows : List Row) : ApiStats :=
  let keyMap := apiKeyMapOf rows
  let unique := keyMap.length
  let passed := (keyMap.filter (fun kv => decide (0 < kv.2.totalSum) && decide (kv.2.failSum = 0))).length
  ⟨unique, passed, unique - passed, pctOf passed unique⟩

/-- Result record of `aggregateCaseStats`. -/
structure CaseStats where
  total : Nat
  pass : Nat
  fail : Nat
  ratePct : Nat
deriving DecidableEq

/-- The aggregator's `aggregateCaseStats` (lines 224-233): straight sums,
where a zero (falsy) row total falls back to `pass + fail`. -/
def aggregateCaseStats (rows : List Row) : CaseStats :=
  let pass := (rows.map (fun r => r.pass)).sum
  let fail := (rows.map (fun r => r.fail)).sum
  let total := (rows.map (fun r => if r.total = 0 then r.pass + r.fail else r.total)).sum
  ⟨total, pass, fail, pctOf pass total⟩

/-- Deduplicated non-empty API names of a row list, modelling
`Array.from(new Set(rows.map(r => r.api).filter(Boolean)))`. -/
def dedupApis (rows : List Row) : List JsStr :=
  rows.foldl (fun s r => if r.api.isEmpty then s else addUnique s r.api) []

/-- The registry-or-fallback choice appearing verbatim both in `main`
(lines 335-336) and in `detectSoftFailApis` (lines 170-171):
`apis.length ? apis : Array.from(new Set(rows.map(r => r.api).filter(Boolean)))`. -/
def apiListFallback (htmlText : JsStr) (rows : List Row) : List JsStr :=
  let apis := extractSuiteApis htmlText
  if apis.isEmpty then dedupApis rows else apis

/-- Scenario row for claim C5: API `Get Invoice` under grouping `Billing`
contributing `pass = 5, fail = 0`. -/
def rowInv1 : Row := ⟨js ("Billing"), js ("Invoices"), js ("Get Invoice"), 5, 0, 5, 100, 120⟩

/-- Scenario row for claim C5: the same key contributing `pass = 3, fail = 2`. -/
def rowInv2 : Row := ⟨js ("Billing"), js ("Invoices"), js ("Get Invoice"), 3, 2, 5, 60, 200⟩

/-- Characters over which the registry JSON round-trip is verified:
serialized verbatim by `JSON.stringify` and distinct from `<` even after the
matcher's case folding, so the capture cannot end early. -/
def plainJsonChar (c : Char) : Bool :=
  decide (jsonEscCh c = [c]) && decide (lowerA c ≠ '<')

/-! ## Soft-failure detection (cleanup-temp.js, `detectSoftFailApis`) and the
builder's folder-details rendering it scans (make-suite-report.js lines
351-399) -/

/-- Case-sensitive literal-prefix matcher (for `String.prototype.indexOf` /
`lastIndexOf`, which do not case-fold). -/
def stripPrefixCS : JsStr → JsStr → Option JsStr
  | [], s => some s
  | _ :: _, [] => none
  | l :: ls, c :: cs => if c = l then stripPrefixCS ls cs else none

/-- Models `s.indexOf(pat)`: index of the first case-sensitive occurrence. -/
def idxOfCS (pat : JsStr) : JsStr → Option Nat
  | [] => if (stripPrefixCS pat []).isSome then some 0 else none
  | c :: cs =>
    if (stripPrefixCS pat (c :: cs)).isSome then some 0
    else (idxOfCS pat cs).map (fun i => i + 1)

/-- Models `s.lastIndexOf(pat, upTo)`: the largest index at most `upTo` where
`pat` occurs, searching downward. -/
def lastIdxOfUpTo (pat s : JsStr) : Nat → Option Nat
  | 0 => if (stripPrefixCS pat s).isSome then some 0 else none
  | i + 1 =>
    if (stripPrefixCS pat (s.drop (i + 1))).isSome then some (i + 1)
    else lastIdxOfUpTo pat s i

/-- Match of the soft-failure regex
`SOFT = /(\+\s*-->\s*Failing|\+\s*--&gt;\s*Failing)/i` at the current
position. -/
def softAt : JsStr → Bool
  | '+' :: rest =>
    (match stripPrefixCI (js ("-->")) (rest.dropWhile isJsWs) with
     | some r2 => (stripPrefixCI (js ("Failing")) (r2.dropWhile isJsWs)).isSome
     | none => false)
    ||
    (match stripPrefixCI (js ("--&gt;")) (rest.dropWhile isJsWs) with
     | some r2 => (stripPrefixCI (js ("Failing")) (r2.dropWhile isJsWs)).isSome
     | none => false)
  | _ => false

/-- Models `SOFT.test(s)`: the soft-failure pattern matches at some position. -/
def softTest : JsStr → Bool
  | [] => false
  | c :: cs => softAt (c :: cs) || softTest cs

/-- Match, at the current position, of the per-API summary regex
`<summary[^>]*>\s*<b>\s*API\s*<\/b>[\s\S]*?<\/summary>` (the API name is
regex-escaped by the source, hence a literal). -/
def matchApiSummaryAt (api : JsStr) (s : JsStr) : Bool :=
  match stripPrefixCI (js ("<summary")) s with
  | none => false
  | some r1 =>
    match skipToGt r1 with
    | none => false
    | some r2 =>
      match stripPrefixCI (js ("<b>")) (r2.dropWhile isJsWs) with
      | none => false
      | some r3 =>
        match stripPrefixCI api (r3.dropWhile isJsWs) with
        | none => false
        | some r4 =>
          match stripPrefixCI (js ("</b>")) (r4.dropWhile isJsWs) with
          | none => false
          | some r5 => (uptoLitAnyCI (js ("</summary>")) r5).isSome

/-- Index of the first match of the per-API summary regex
(`startMatch.index`). -/
def findApiSummaryIdx (api : JsStr) : JsStr → Option Nat
  | [] => none
  | c :: cs =>
    if matchApiSummaryAt api (c :: cs) then some 0
    else (findApiSummaryIdx api cs).map (fun i => i + 1)

/-- The per-API body of `detectSoftFailApis` (lines 176-201): locate the API's
summary; on success scan the enclosing `<details>` section (or a 30000
character window when a boundary is missing) for the soft marker; on failure
fall back to a crude lower-cased `<b>API</b>` search with a 30000 character
window. -/
def softSectionFlag (htmlText : JsStr) (api : JsStr) : Bool :=
  match findApiSummaryIdx api htmlText with
  | some startIdx =>
    let lo := match lastIdxOfUpTo (js ("<details")) htmlText startIdx with
      | some i => i
      | none => startIdx
    let hi := match (idxOfCS (js ("</details>")) (htmlText.drop startIdx)).map
        (fun i => i + startIdx) with
      | some i => i
      | none => min htmlText.length (startIdx + 30000)
    softTest ((htmlText.drop lo).take (hi - lo))
  | none =>
    match idxOfCS (js ("<b>") ++ api.map lowerA ++ js ("</b>")) (htmlText.map lowerA) with
    | none => false
    | some roughIdx => softTest ((htmlText.drop roughIdx).take 30000)

/-- The aggregator's `detectSoftFailApis` (lines 169-204): the registry (or
row-name fallback) API list, each non-empty name scanned and the flagged ones
collected as a set. -/
def detectSoftFailApis (htmlText : JsStr) (fallbackRows : List Row) : List JsStr :=
  (apiListFallback htmlText fallbackRows).foldl (fun flagged api =>
    if api.isEmpty then flagged
    else if softSectionFlag htmlText api then addUnique flagged api else flagged) []

/-- Stable insertion into a sorted list (keeps the new element after all
elements that compare at-or-before it). -/
def insertSorted {α : Type} (le : α → α → Bool) : List α → α → List α
  | [], x => [x]
  | y :: ys, x => if le y x then y :: insertSorted le ys x else x :: y :: ys

/-- Stable sort, the stand-in for `Array.prototype.sort` (structurally
recursive so that concrete renders evaluate). -/
def sortByJs {α : Type} (le : α → α → Bool) (l : List α) : List α :=
  l.foldl (insertSorted le) []

/-- Code-point lexicographic order on strings, the stand-in for the source's
`localeCompare` display ordering (ICU collation is not modelled; no verified
claim depends on display order). -/
def lexLe : JsStr → JsStr → Bool
  | [], _ => true
  | _ :: _, [] => false
  | a :: as, b :: bs => if a = b then lexLe as bs else decide (a.toNat < b.toNat)

/-- Grouping of a folder's cases by API name (`fr.apis.reduce(...)`, object
keys in insertion order). -/
def apimapOf (apis : List TestCase) : List (JsStr × List TestCase) :=
  apis.foldl (fun m tc =>
    match m.find? (fun kv => decide (kv.1 = tc.api)) with
    | some _ => m.map (fun kv => if kv.1 = tc.api then (kv.1, kv.2 ++ [tc]) else kv)
    | none => m ++ [(tc.api, [tc])]) []

/-- Lookup in the api map (`apimap[apiName] || []`). -/
def apimapLookup (m : List (JsStr × List TestCase)) (k : JsStr) : List TestCase :=
  ((m.find? (fun kv => decide (kv.1 = k))).map (fun kv => kv.2)).getD []

/-- Upper-cased outcome label (`tc.result.toUpperCase()`). -/
def resultUpper : TCResult → JsStr
  | TCResult.Pass => js ("PASS")
  | TCResult.Fail => js ("FAIL")
  | TCResult.Skipped => js ("SKIPPED")
  | TCResult.NotRun => js ("NOT RUN")

/-- One row of the per-case checks table (make-suite-report.js line 386). -/
def renderCheckRow (i : Nat) (c : Check) : JsStr :=
  js ("<tr class=\"") ++ (if c.ok then js ("ok") else js ("ng")) ++ js ("\"><td>") ++
  natDigits (i + 1) ++ js ("</td><td>") ++ esc c.name ++ js ("</td><td>") ++
  (if c.ok then js ("PASS") else js ("FAIL")) ++ js ("</td><td>") ++
  esc (if c.ok then js ("OK") else c.message) ++ js ("</td></tr>")

/-- The per-case checks table or its empty placeholder (lines 383-389). -/
def renderChecksTable (checks : List Check) : JsStr :=
  if checks.isEmpty then js ("<div class=\"muted\">— no assertions —</div>")
  else
    js ("<table class=\"checks\"><thead><tr><th>#</th><th>Assertion</th><th>Status</th><th>Message</th></tr></thead><tbody>") ++
    (checks.mapIdx renderCheckRow).flatten ++ js ("</tbody></table>")

/-- The optional status fragment (`tc.statusCode ? ... : ''`; a zero code is
falsy). -/
def statusPart (sc : Option Nat) : JsStr :=
  match sc with
  | some c => if c = 0 then [] else js ("· <b>Status:</b> ") ++ natDigits c ++ js (" ")
  | none => []

/-- The optional response-time fragment
(`Number.isFinite(tc.respMs) ? ... : ''`). -/
def respPart (ms : Option Nat) : JsStr :=
  match ms with
  | some m => js ("· <b>Resp:</b> ") ++ fmtNat m ++ js (" ms ")
  | none => []

/-- One rendered case block (lines 371-390).  The base64 payload pair stands
for the `tc.reqB64` / `tc.resB64` fields of the source object (not modelled on
`TestCase`, see there). -/
def renderCaseBlock (apiName : JsStr) (tc : TestCase) (pay : JsStr × JsStr) : JsStr :=
  js ("<div class=\"block\" id=\"") ++ tc.id ++ js ("\"><div><span class=\"badge ") ++
  (if tc.result = TCResult.Pass then js ("pass") else js ("fail")) ++ js ("\">") ++
  resultUpper tc.result ++ js ("</span> <b>") ++ tc.tcId ++ js ("-") ++
  esc (pretty apiName) ++ js ("</b> ") ++
  statusPart tc.statusCode ++ respPart tc.respMs ++
  js ("<button class=\"btn-mini\" data-open=\"req\" data-for=\"") ++ tc.id ++
  js ("\">View Request</button> <button class=\"btn-mini\" data-open=\"res\" data-for=\"") ++
  tc.id ++ js ("\">View Response</button></div>") ++
  js ("<script type=\"application/json\" id=\"payload-req-") ++ tc.id ++ js ("\">") ++
  pay.1 ++ js ("</script>") ++
  js ("<script type=\"application/json\" id=\"payload-res-") ++ tc.id ++ js ("\">") ++
  pay.2 ++ js ("</script>") ++
  js ("<div><b>Checks:</b> ") ++ fmtNat tc.checksPassed ++ js (" / ") ++
  fmtNat tc.checksTotal ++ js ("</div>") ++
  renderChecksTable tc.checks ++ js ("</div>")

/-- One rendered per-API `<details>` block (lines 361-393): cases sorted by
iteration, pass/fail counts over the sorted cases. -/
def renderApiDetails (group apiName : JsStr) (cases : List TestCase)
    (pay : TestCase → JsStr × JsStr) : JsStr :=
  let sorted := sortByJs (fun a b => decide (a.iteration ≤ b.iteration)) cases
  let passCnt := (sorted.filter (fun c => decide (c.result = TCResult.Pass))).length
  let failCnt := (sorted.filter (fun c => decide (c.result = TCResult.Fail))).length
  js ("<details id=\"api-") ++ idfy (group ++ '-' :: apiName) ++
  js ("\" style=\"margin:8px 12px\"><summary><b>") ++ esc (pretty apiName) ++
  js ("</b> — ") ++ natDigits sorted.length ++ js (" case(s) · <span class=\"badge pass\">") ++
  natDigits passCnt ++ js ("</span> <span class=\"badge fail\">") ++ natDigits failCnt ++
  js ("</span></summary>") ++
  (sorted.map (fun tc => renderCaseBlock apiName tc (pay tc))).flatten ++
  js ("</details>")

/-- One rendered per-folder `<details>` block (lines 355-397): API names in
display order, each API's cases from the folder's api map. -/
def renderFolderDetails (fr : FolderRow) (pay : TestCase → JsStr × JsStr) : JsStr :=
  let apimap := apimapOf fr.apis
  let apiNames := sortByJs (fun a b => lexLe (pretty a) (pretty b)) (apimap.map (fun kv => kv.1))
  js ("<details id=\"folder-") ++ idfy fr.group ++ js ("\"><summary><b>") ++
  esc (pretty fr.group) ++ js ("</b> — ") ++ natDigits apiNames.length ++
  js (" API(s)</summary>") ++
  (apiNames.map (fun api => renderApiDetails fr.group api (apimapLookup apimap api) pay)).flatten ++
  js ("</details>")

/-- The folder-wise details card (lines 351-400). -/
def renderDetailsSection (rows : List FolderRow) (pay : TestCase → JsStr × JsStr) : JsStr :=
  js ("<div class=\"card\"><h3 style=\"margin:0 0 8px\">Folder-wise Execution Details (APIs &amp; Checks)</h3>") ++
  (if rows.isEmpty then js ("<div class=\"muted\">No folders found.</div>")
   else (rows.map (fun fr => renderFolderDetails fr pay)).flatten) ++
  js ("</div>")

/-! ## Suite identity derivation (make-suite-report.js lines 51-62) -/

/-- Anchor test `/newmancollectionlist/i.test(segment)`: a case-insensitive
substring containment. -/
def segHasAnchor (seg : JsStr) : Bool := containsCI (js ("newmancollectionlist")) seg

/-- `deriveParentFromPath` modelled on the segments of the resolved output
path (`String(path.resolve(p)).split(/[\\/]+/)`; `path.resolve` itself is
process state and not modelled).  A segment is truthy when non-empty. -/
def deriveParentFromSegs (segs : List JsStr) : JsStr :=
  match segs.findIdx? segHasAnchor with
  | some i =>
    match segs[i + 1]? with
    | some s => if s.isEmpty then js ("Misc") else s
    | none => js ("Misc")
  | none => js ("Misc")

/-- The module fallback
`collection?.info?.name?.split("-").pop()?.trim() || "Module"`. -/
def moduleFromCollectionName (collName : Option JsStr) : JsStr :=
  match collName with
  | none => js ("Module")
  | some n =>
    let t := jsTrim ((List.splitOn '-' n).getLastD [])
    if t.isEmpty then js ("Module") else t

/-- `deriveModuleFromPath` modelled on the resolved path segments, with the
collection name passed explicitly (the source reads the script-global
`collection`). -/
def deriveModuleFromSegs (segs : List JsStr) (collName : Option JsStr) : JsStr :=
  match segs.findIdx? segHasAnchor with
  | some i =>
    match segs[i + 2]? with
    | some s => if s.isEmpty then moduleFromCollectionName collName else s
    | none => moduleFromCollectionName collName
  | none => moduleFromCollectionName collName

/-- Resolved-path segments with no anchor directory, for the C10 scenarios. -/
def cexSegsC10 : List JsStr := [js ("C:"), js ("Users"), js ("reports"), js ("out.html")]

/-- Constant payload pair standing for the base64 request/response blobs of a
rendered case (base64 text can never contain the soft marker: its alphabet has
no `-` or `;`). -/
def payStub : TestCase → JsStr × JsStr := fun _ => (js ("e30="), js ("e30="))

/-- Execution entry whose single failing assertion carries the given
message, for the soft-failure boundary scenarios. -/
def softEntry (msg : String) : ExecEntry :=
  ⟨some (js ("Billing/Get Invoice")),
   [⟨some (js ("Body schema check")), some ⟨none, none, some (js msg), none⟩⟩],
   some ⟨some 500, none, some 120⟩, some 0⟩

/-- Builder-rendered document for one folder with one API and one case whose
failing assertion carries `msg`, followed by the embedded API registry. -/
def softDoc (msg : String) : JsStr :=
  renderDetailsSection
    [folderRowOfAcc (accUpdate (testCaseOf (some (softEntry msg))) ⟨js ("Billing"), 0, 0, 0, [], []⟩)]
    payStub ++
  renderSuiteApisBlock [pretty (js ("Billing/Get Invoice"))]

/-! ## Folder-summary row rendering (make-suite-report.js lines 328-346) and
the aggregator's row extraction (`parseSuiteRows`, cleanup-temp.js lines
130-155) -/

/-- The clickable folder-summary row of the builder's template (lines
330-338), split at the boundaries the extraction regex steps over; the
concatenation is textually the source template.  `fmt` is `fmtNat`
(`toLocaleString`), while the badge count interpolates a plain number
(`natDigits`). -/
def clickableTr (r : FolderRow) : JsStr :=
  js ("<tr") ++ js (" class=\"clickable\" data-row=\"folder-") ++ idfy r.group ++
  js ("\" data-folder=\"") ++ esc r.group ++ js ("\"") ++ js (">") ++
  js ("\n              ") ++ js ("<td>") ++
  esc r.pretty ++ js (" <span class=\"badge\">") ++ natDigits r.apis.length ++ js ("</span>") ++
  js ("</td>") ++ js ("\n              ") ++
  js ("<td>") ++ js ("<span class=\"badge pass\">") ++ fmtNat r.pass ++ js ("</span>") ++
  js ("</td>") ++ js ("\n              ") ++
  js ("<td>") ++ js ("<span class=\"badge fail\">") ++ fmtNat r.fail ++ js ("</span>") ++
  js ("</td>") ++ js ("\n              ") ++
  js ("<td>") ++ fmtNat r.total ++ js ("</td>") ++ js ("\n              ") ++
  js ("<td>") ++ fmtNat r.passPct ++ js ("%") ++ js ("</td>") ++ js ("\n              ") ++
  js ("<td>") ++ fmtNat r.avgMs ++ js ("</td>") ++ js ("\n            ") ++ js ("</tr>")

/-- The hidden expandable sub-row emitted directly after each clickable row
(template lines 339-345), split at tag boundaries. -/
def subrowTr (r : FolderRow) : JsStr :=
  js ("\n            ") ++
  js ("<tr class=\"subrow\" id=\"sub-folder-") ++ idfy r.group ++
  js ("\" style=\"display:none\">\n              ") ++
  js ("<td colspan=\"6\">\n                ") ++
  js ("<div class=\"expand-card\" id=\"box-folder-") ++ idfy r.group ++
  js ("\">\n                  ") ++
  js ("<span class=\"muted\">Loading…") ++
  js ("</span>\n                ") ++
  js ("</div>\n              ") ++
  js ("</td>\n            ") ++
  js ("</tr>")

/-- One folder's full template-row render (clickable row plus sub-row, with
the template's leading line break and indentation). -/
def renderFolderRowTr (r : FolderRow) : JsStr :=
  js ("\n            ") ++ clickableTr r ++ subrowTr r

/-- The folder-summary table body: `folderRows.map(...).join('')`. -/
def renderFolderTbody (rows : List FolderRow) : JsStr :=
  (rows.map renderFolderRowTr).flatten

/-- One or more digits (`(\d+)`), captured greedily. -/
def takeDigits1 (s : JsStr) : Option (JsStr × JsStr) :=
  let ds := s.takeWhile isDig
  if ds.isEmpty then none else some (ds, s.dropWhile isDig)

/-- Character class `[\d,\.]` of the latency capture. -/
def isNumClass (c : Char) : Bool := isDig c || decide (c = ',') || decide (c = '.')

/-- One or more characters of `[\d,\.]+`, captured greedily. -/
def takeNumClass1 (s : JsStr) : Option (JsStr × JsStr) :=
  let ds := s.takeWhile isNumClass
  if ds.isEmpty then none else some (ds, s.dropWhile isNumClass)

/-- The optional opening span of a numeric cell (`(?:<span[^>]*>)?`): taken
exactly when present.  Backtracking cannot differ: when the span tag matches,
the position starts with `<`, which can never satisfy the following `\d`. -/
def skipOptSpanOpen (s : JsStr) : JsStr :=
  match stripPrefixCI (js ("<span")) s with
  | some r =>
    (match skipToGt r with
     | some r2 => r2
     | none => s)
  | none => s

/-- The optional closing span (`(?:<\/span>)?`): taken exactly when present
(`</span>` and the following literal `</td>` differ within three characters,
so backtracking cannot differ). -/
def skipOptSpanClose (s : JsStr) : JsStr :=
  match stripPrefixCI (js ("</span>")) s with
  | some r => r
  | none => s

/-- A pass/fail cell:
`<td[^>]*>(?:<span[^>]*>)?(\d+)(?:<\/span>)?<\/td>`, yielding `Number` of the
digit capture. -/
def matchNumCell (s : JsStr) : Option (Nat × JsStr) :=
  match stripPrefixCI (js ("<td")) s with
  | none => none
  | some r1 =>
    match skipToGt r1 with
    | none => none
    | some r2 =>
      match takeDigits1 (skipOptSpanOpen r2) with
      | none => none
      | some (ds, r3) =>
        match stripPrefixCI (js ("</td>")) (skipOptSpanClose r3) with
        | some r4 => some (decVal ds, r4)
        | none => none

/-- The total cell: `<td[^>]*>(\d+)<\/td>`. -/
def matchPlainNumCell (s : JsStr) : Option (Nat × JsStr) :=
  match stripPrefixCI (js ("<td")) s with
  | none => none
  | some r1 =>
    match skipToGt r1 with
    | none => none
    | some r2 =>
      match takeDigits1 r2 with
      | none => none
      | some (ds, r3) =>
        match stripPrefixCI (js ("</td>")) r3 with
        | some r4 => some (decVal ds, r4)
        | none => none

/-- The optional fractional part (`(?:\.\d+)?`) of the percentage capture. -/
def pctFrac (r3 : JsStr) : JsStr :=
  match r3 with
  | '.' :: rest =>
    (match takeDigits1 rest with
     | some (_, rr) => rr
     | none => '.' :: rest)
  | _ => r3

/-- The optional percent sign (`%?`) of the percentage cell. -/
def pctPercent (r5 : JsStr) : JsStr :=
  match r5 with
  | '%' :: rr => rr
  | _ => r5

/-- The percentage cell: `<td[^>]*>(\d+(?:\.\d+)?)\s*%?\s*<\/td>`.  The
numeric value is modelled as the integer value of the digits before any
decimal point; builder-rendered percentage cells are integers, where this
agrees with `Number` of the capture. -/
def matchPctCell (s : JsStr) : Option (Nat × JsStr) :=
  match stripPrefixCI (js ("<td")) s with
  | none => none
  | some r1 =>
    match skipToGt r1 with
    | none => none
    | some r2 =>
      match takeDigits1 r2 with
      | none => none
      | some (ds, r3) =>
        match stripPrefixCI (js ("</td>"))
            ((pctPercent ((pctFrac r3).dropWhile isJsWs)).dropWhile isJsWs) with
        | some r7 => some (decVal ds, r7)
        | none => none

/-- The latency cell: `<td[^>]*>([\d,\.]+)\s*<\/td>`, with
`Number(capture.replace(/,/g, ""))`.  The numeric value is modelled as the
integer value of the comma-stripped capture; builder-rendered latency cells
contain no decimal point, where this agrees with the source. -/
def matchAvgCell (s : JsStr) : Option (Nat × JsStr) :=
  match stripPrefixCI (js ("<td")) s with
  | none => none
  | some r1 =>
    match skipToGt r1 with
    | none => none
    | some r2 =>
      match takeNumClass1 r2 with
      | none => none
      | some (cap, r3) =>
        match stripPrefixCI (js ("</td>")) (r3.dropWhile isJsWs) with
        | some r4 => some (decVal (stripCommas cap), r4)
        | none => none

/-- The six captures of one folder-summary row match. -/
structure CellsMatch where
  cell : JsStr
  pass : Nat
  fail : Nat
  total : Nat
  passPct : Nat
  avg : Nat
deriving DecidableEq

/-- Attempted match of the full `parseSuiteRows` row regex at the current
position:
`<tr[^>]*>\s*<td>(.*?)<\/td>` followed by two span-tolerant numeric cells,
a plain numeric cell, the percentage cell, the latency cell, and
`\s*<\/tr>`. -/
def matchRowAt (s : JsStr) : Option (CellsMatch × JsStr) :=
  match stripPrefixCI (js ("<tr")) s with
  | none => none
  | some r1 =>
    match skipToGt r1 with
    | none => none
    | some r2 =>
      match stripPrefixCI (js ("<td>")) (r2.dropWhile isJsWs) with
      | none => none
      | some r3 =>
        match uptoLitCI (js ("</td>")) r3 with
        | none => none
        | some (cell, r4) =>
          match matchNumCell (r4.dropWhile isJsWs) with
          | none => none
          | some (p, r5) =>
            match matchNumCell (r5.dropWhile isJsWs) with
            | none => none
            | some (f, r6) =>
              match matchPlainNumCell (r6.dropWhile isJsWs) with
              | none => none
              | some (tot, r7) =>
                match matchPctCell (r7.dropWhile isJsWs) with
                | none => none
                | some (pct, r8) =>
                  match matchAvgCell (r8.dropWhile isJsWs) with
                  | none => none
                  | some (avg, r9) =>
                    match stripPrefixCI (js ("</tr>")) (r9.dropWhile isJsWs) with
                    | none => none
                    | some r10 => some (⟨cell, p, f, tot, pct, avg⟩, r10)

/-- Fueled global scan of the row regex (`re.exec` in a loop): at each
position try a match; on success continue after the match, else advance one
character.  Each iteration consumes at least one character, so any fuel of at
least the input length is exact. -/
def scanRowsFuel : Nat → JsStr → List CellsMatch
  | 0, _ => []
  | fuel + 1, s =>
    match matchRowAt s with
    | some (m, rest) => m :: scanRowsFuel fuel rest
    | none =>
      match s with
      | [] => []
      | _ :: cs => scanRowsFuel fuel cs

/-- All row matches of a document, in order. -/
def scanRows (s : JsStr) : List CellsMatch := scanRowsFuel s.length s

/-- The aggregator's `parseSuiteRows` (lines 130-155) on a document whose
suite-parent and suite-module metadata extraction yielded the given keys.
The source additionally strips decorative badge spans, residual tags and a
trailing count from the first (name) cell; that cleanup affects only the
display name, which no verified claim constrains, so the raw capture is kept
as the `api` field. -/
def parseSuiteRowsModel (parent moduleKey : JsStr) (htmlText : JsStr) : List Row :=
  (scanRows htmlText).map (fun m =>
    ⟨parent, moduleKey, m.cell, m.pass, m.fail, m.total, m.passPct, m.avg⟩)

/-- The ten decimal digit characters. -/
def tenDigits : JsStr := js ("0123456789")

/-- Mismatch of a case-insensitive literal against a segment occurring
strictly within the segment: when true, the literal can match at this
position for no continuation of the segment. -/
def prefixMismatchWithin : JsStr → JsStr → Bool
  | _, [] => false
  | [], _ :: _ => false
  | l :: ls, c :: cs => if lowerA c = lowerA l then prefixMismatchWithin ls cs else true

/-- The literal is blocked at every start position inside the segment
(matches cannot even span from inside the segment into what follows it). -/
def litBlockedIn (lit : JsStr) : JsStr → Bool
  | [] => true
  | c :: cs => prefixMismatchWithin lit (c :: cs) && litBlockedIn lit cs

/-- The C3 counterexample folder row: 1000 passing cases in one folder. -/
def cexRowC3 : FolderRow := ⟨js ("Load"), js ("Load"), 1000, 1000, 0, 100, 5, []⟩

/-- Numeric view of a parsed row (the five verified fields). -/
def rowNums (r : Row) : Nat × Nat × Nat × Nat × Nat := (r.pass, r.fail, r.total, r.passPct, r.avg)

/-- Numeric view of a rendered folder row (the five verified fields). -/
def folderRowNums (r : FolderRow) : Nat × Nat × Nat × Nat × Nat :=
  (r.pass, r.fail, r.total, r.passPct, r.avgMs)

/-- The embedded registry block of the C6 witness document. -/
def regBlockC6 : JsStr := renderSuiteApisBlock [js ("Get Invoice")]

/-- The folder row produced by the C9 witness scenario (one passing case). -/
def folderRowA : FolderRow :=
  folderRowOfAcc (accUpdate (testCaseOf (some entryA)) ⟨js ("Users"), 0, 0, 0, [], []⟩)

/-- The name-cell capture of a rendered folder row (escaped display name
plus the decorative badge count). -/
def cellC3 (r : FolderRow) : JsStr :=
  esc r.pretty ++ (js (" <span class=\"badge\">") ++ (natDigits r.apis.length ++ js ("</span>")))

/-- The row-regex captures of a rendered folder row. -/
def cellsOfRow (r : FolderRow) : CellsMatch :=
  ⟨cellC3 r, r.pass, r.fail, r.total, r.passPct, r.avgMs⟩

/-- A concrete small folder row (counts below 1000) for the C3 witness. -/
def smallRowC3 : FolderRow := ⟨js ("Users"), js ("Users"), 5, 3, 2, 60, 1500, []⟩

/-! ## Theorems -/

lemma natDigitsRevFuel_irrel (f1 : Nat) : ∀ (f2 n : Nat), n ≤ f1 → n ≤ f2 →
    natDigitsRevFuel f1 n = natDigitsRevFuel f2 n := by
  induction f1 with
  | zero =>
    intro f2 n h1 _
    have hn : n = 0 := Nat.le_zero.mp h1
    subst hn
    cases f2 with
    | zero => rfl
    | succ f2 => simp [natDigitsRevFuel]
  | succ f ih =>
    intro f2 n h1 h2
    cases f2 with
    | zero =>
      have hn : n = 0 := Nat.le_zero.mp h2
      subst hn
      simp [natDigitsRevFuel]
    | succ f2 =>
      by_cases hn : n = 0
      · subst hn; simp [natDigitsRevFuel]
      · simp only [natDigitsRevFuel, hn, if_false]
        have hd : n / 10 < n := Nat.div_lt_self (Nat.pos_of_ne_zero hn) (by norm_num)
        rw [ih f2 (n / 10) (by omega) (by omega)]

lemma natDigitsRev_eq (n : Nat) (h : n ≠ 0) :
    natDigitsRev n = decCh (n % 10) :: natDigitsRev (n / 10) := by
  unfold natDigitsRev
  cases n with
  | zero => exact absurd rfl h
  | succ m =>
    show natDigitsRevFuel (m + 1) (m + 1) = _
    rw [show natDigitsRevFuel (m + 1) (m + 1) =
        (if m + 1 = 0 then [] else decCh ((m + 1) % 10) :: natDigitsRevFuel m ((m + 1) / 10))
        from rfl]
    rw [if_neg h]
    have hd : (m + 1) / 10 < m + 1 := Nat.div_lt_self (by omega) (by norm_num)
    rw [natDigitsRevFuel_irrel m ((m + 1) / 10) ((m + 1) / 10) (by omega) (le_refl _)]

lemma groupRevFuel_small (fuel : Nat) (ds : List Char) (h : ds.length ≤ 3) :
    groupRevFuel fuel ds = ds := by
  cases fuel with
  | zero => rfl
  | succ f => simp [groupRevFuel, h]

lemma groupRevFuel_irrel (f1 : Nat) : ∀ (f2 : Nat) (ds : List Char),
    ds.length ≤ 3 + 3 * f1 → ds.length ≤ 3 + 3 * f2 →
    groupRevFuel f1 ds = groupRevFuel f2 ds := by
  induction f1 with
  | zero =>
    intro f2 ds h1 _
    rw [groupRevFuel_small 0 ds (by omega), groupRevFuel_small f2 ds (by omega)]
  | succ f ih =>
    intro f2 ds h1 h2
    by_cases hs : ds.length ≤ 3
    · rw [groupRevFuel_small _ ds hs, groupRevFuel_small f2 ds hs]
    · cases f2 with
      | zero => omega
      | succ f2 =>
        simp only [groupRevFuel, hs, if_false]
        rw [ih f2 (ds.drop 3) (by simp; omega) (by simp; omega)]

lemma groupRev_eq (ds : List Char) :
    groupRev ds = if ds.length ≤ 3 then ds
      else ds.take 3 ++ ',' :: groupRev (ds.drop 3) := by
  unfold groupRev
  by_cases hs : ds.length ≤ 3
  · rw [if_pos hs, groupRevFuel_small _ ds hs]
  · rw [if_neg hs]
    cases hlen : ds.length with
    | zero => omega
    | succ k =>
      simp only [groupRevFuel, hlen, hs, if_false]
      rw [show (if k + 1 ≤ 3 then ds else ds.take 3 ++ ',' :: groupRevFuel k (ds.drop 3)) =
          ds.take 3 ++ ',' :: groupRevFuel k (ds.drop 3) from by
        rw [if_neg (by omega)]]
      rw [groupRevFuel_irrel k (ds.drop 3).length (ds.drop 3) (by simp; omega) (by simp; omega)]


/-- C1, counterexample.  On the claimed input — where the third execution
entry is PRESENT with zero assertions and no response — the normalizer
classifies that entry as `Pass` (a present entry is never `Not Run`, and zero
failed assertions means `Pass`), so the suite aggregates are
`totalCases = 3, passedCases = 2, failedCases = 1, passPct = 67,
withinSLA = 1, withinPct = 33`, not the claimed
`(2, 1, 1, 50, 1, 50)`. -/
theorem C1_counterexample :
    suiteAggOf claimExecsC1 1000 = ⟨3, 2, 1, 67, 1, 33⟩ ∧
    suiteAggOf claimExecsC1 1000 ≠ ⟨2, 1, 1, 50, 1, 50⟩ := by decide

/-- C1, amended.  With the third slot being a missing (null) execution entry —
which the normalizer classifies `Not Run` and excludes from `considered` —
the suite aggregates are exactly the claimed
`totalCases = 2, passedCases = 1, failedCases = 1, passPct = 50,
withinSLA = 1, withinPct = 50` at SLA 1000 ms. -/
theorem C1_amended_aggregates :
    suiteAggOf amendedExecsC1 1000 = ⟨2, 1, 1, 50, 1, 50⟩ := by decide

/-- C2, counterexample.  The assertion name `skipped` contains the substring
`skip` case-insensitively, yet the normalizer classifies the entry `Fail`, not
`Skipped`: the source tests `/\bskip\b/i`, and in `skipped` the occurrence of
`skip` is followed by the word character `p`, so the trailing `\b` fails. -/
theorem C2_counterexample :
    containsCI (js ("skip")) (js ("skipped")) = true ∧
    (testCaseOf (some cexEntryC2)).result = TCResult.Fail ∧
    TCResult.Fail ≠ TCResult.Skipped := by decide

/-- C2, amended.  For every present execution entry, if some normalized check
has a word-bounded occurrence of `skip` (case-insensitive, the regex
`/\bskip\b/i`) in its name or failure message, the outcome is `Skipped` —
regardless of recorded errors, since the skip test precedes the failure test
in the classification chain. -/
theorem C2_amended_skip_precedence (e : ExecEntry)
    (h : (e.assertions.map checkOfAssertion).any
      (fun c => hasWordSkip c.name || hasWordSkip c.message) = true) :
    (testCaseOf (some e)).result = TCResult.Skipped := by
  simp only [testCaseOf, Option.isNone_some, Bool.false_eq_true, if_false, h, if_true]

/-- Witness for the amended C2 at a concrete entry that also has a recorded
error, exhibiting the precedence of `Skipped` over `Fail`. -/
theorem C2_amended_skip_precedence_witness :
    (witEntryC2.assertions.map checkOfAssertion).any
      (fun c => hasWordSkip c.name || hasWordSkip c.message) = true ∧
    (testCaseOf (some witEntryC2)).result = TCResult.Skipped :=
  ⟨by decide, C2_amended_skip_precedence witEntryC2 (by decide)⟩

/-- C8.  A missing execution entry (a null slot of the executions sequence)
normalizes to the `Not Run` outcome with no assertions counted; `testCaseOf`
is a total function, so no input raises an error. -/
theorem C8_missing_entry_not_run :
    (testCaseOf none).result = TCResult.NotRun ∧
    (testCaseOf none).checksTotal = 0 ∧ (testCaseOf none).checks = [] := by decide

lemma stripPrefixCI_self (lit t : JsStr) : stripPrefixCI lit (lit ++ t) = some t := by
  induction lit with
  | nil => rfl
  | cons l ls ih => simp [stripPrefixCI, ih]

lemma stripPrefixCI_cons_none (l c : Char) (ls cs : JsStr) (h : lowerA c ≠ lowerA l) :
    stripPrefixCI (l :: ls) (c :: cs) = none := by
  simp [stripPrefixCI, h]

lemma uptoLitAnyCI_exact (ls a t : JsStr) (ha : ∀ c ∈ a, lowerA c ≠ '<') :
    uptoLitAnyCI ('<' :: ls) (a ++ ('<' :: ls) ++ t) = some (a, t) := by
  induction a with
  | nil =>
    have hs := stripPrefixCI_self ('<' :: ls) t
    simp only [List.cons_append] at hs
    simp [uptoLitAnyCI, hs]
  | cons c a' ih =>
    have hc : lowerA c ≠ lowerA '<' := by
      have := ha c (by simp)
      simpa [lowerA] using this
    simp only [List.cons_append]
    rw [show uptoLitAnyCI ('<' :: ls) (c :: (a' ++ '<' :: ls ++ t)) =
      (uptoLitAnyCI ('<' :: ls) (a' ++ '<' :: ls ++ t)).map (fun pr => (c :: pr.1, pr.2)) from by
        simp [uptoLitAnyCI, stripPrefixCI_cons_none _ _ _ _ hc]]
    rw [ih (fun c hc => ha c (by simp [hc]))]
    rfl

lemma flatten_map_singleton {α : Type} (f : α → List α) (s : List α)
    (h : ∀ c ∈ s, f c = [c]) : (s.map f).flatten = s := by
  induction s with
  | nil => rfl
  | cons c cs ih =>
    simp only [List.map_cons, List.flatten_cons, h c (by simp)]
    rw [ih (fun c hc => h c (by simp [hc]))]
    rfl

lemma jsonStr_plain (s : JsStr) (h : ∀ c ∈ s, jsonEscCh c = [c]) :
    jsonStr s = '"' :: s ++ ['"'] := by
  simp [jsonStr, flatten_map_singleton _ _ h]

lemma plain_ne_quote_bslash (c : Char) (h : jsonEscCh c = [c]) : c ≠ '"' ∧ c ≠ '\\' := by
  constructor <;> intro hc <;> subst hc <;> simp [jsonEscCh] at h

lemma parseJsonStringBody_quote (t : JsStr) : parseJsonStringBody ('"' :: t) = some ([], t) := by
  rw [parseJsonStringBody.eq_def]
  dsimp only
  rw [if_pos rfl]

lemma parseJsonStringBody_cons_plain (c : Char) (s : JsStr) (h1 : c ≠ '"') (h2 : c ≠ '\\') :
    parseJsonStringBody (c :: s) = (parseJsonStringBody s).map (fun pr => (c :: pr.1, pr.2)) := by
  conv_lhs => rw [parseJsonStringBody.eq_def]
  dsimp only
  rw [if_neg h1, if_neg h2]

lemma parseJsonStringBody_plain (s t : JsStr) (h : ∀ c ∈ s, jsonEscCh c = [c]) :
    parseJsonStringBody (s ++ '"' :: t) = some (s, t) := by
  induction s with
  | nil => simp [parseJsonStringBody_quote]
  | cons c cs ih =>
    obtain ⟨h1, h2⟩ := plain_ne_quote_bslash c (h c (by simp))
    simp only [List.cons_append]
    rw [parseJsonStringBody_cons_plain c _ h1 h2, ih (fun c hc => h c (by simp [hc]))]
    rfl

lemma dropWhile_comma (r : JsStr) : List.dropWhile isJsonWs (',' :: r) = ',' :: r :=
  List.dropWhile_cons_of_neg (by decide)

lemma dropWhile_quote (r : JsStr) : List.dropWhile isJsonWs ('"' :: r) = '"' :: r :=
  List.dropWhile_cons_of_neg (by decide)

lemma dropWhile_rbracket (r : JsStr) : List.dropWhile isJsonWs (']' :: r) = ']' :: r :=
  List.dropWhile_cons_of_neg (by decide)

lemma parseJsonStrsLoop_items (xs : List JsStr) : ∀ (fuel : Nat) (t : JsStr),
    xs.length < fuel → (∀ n ∈ xs, ∀ c ∈ n, jsonEscCh c = [c]) →
    parseJsonStrsLoop fuel ((xs.map (fun s => ',' :: jsonStr s)).flatten ++ ']' :: t) =
      some (xs, t) := by
  induction xs with
  | nil =>
    intro fuel t hf _
    match fuel, hf with
    | fuel + 1, _ =>
      rw [parseJsonStrsLoop.eq_def]
      simp only [List.map_nil, List.flatten_nil, List.nil_append, dropWhile_rbracket]
  | cons x xs' ih =>
    intro fuel t hf hplain
    match fuel, hf with
    | fuel + 1, hf =>
      have hx : ∀ c ∈ x, jsonEscCh c = [c] := hplain x (by simp)
      rw [parseJsonStrsLoop.eq_def]
      simp only [List.map_cons, List.flatten_cons, jsonStr_plain x hx, List.cons_append,
        List.append_assoc, List.nil_append, List.singleton_append, dropWhile_comma,
        dropWhile_quote]
      have hb := parseJsonStringBody_plain x
        ((xs'.map (fun s => ',' :: jsonStr s)).flatten ++ ']' :: t) hx
      rw [hb]
      dsimp only
      rw [ih fuel t (by simpa using Nat.lt_of_succ_lt_succ hf)
        (fun n hn => hplain n (by simp [hn]))]
      rfl

lemma flatten_items_length_ge (xs : List JsStr) :
    xs.length ≤ ((xs.map (fun s => ',' :: jsonStr s)).flatten).length := by
  induction xs with
  | nil => simp
  | cons x xs' ih =>
    simp only [List.map_cons, List.flatten_cons, List.length_append, List.length_cons]
    omega

lemma dropWhile_lbracket (r : JsStr) : List.dropWhile isJsonWs ('[' :: r) = '[' :: r :=
  List.dropWhile_cons_of_neg (by decide)

lemma jsonParseStrList_roundtrip (l : List JsStr)
    (h : ∀ n ∈ l, ∀ c ∈ n, jsonEscCh c = [c]) :
    jsonParseStrList (jsonStringifyStrList l) = some l := by
  cases l with
  | nil => rfl
  | cons x xs =>
    have hx : ∀ c ∈ x, jsonEscCh c = [c] := h x (by simp)
    rw [jsonParseStrList.eq_def]
    simp only [jsonStringifyStrList, jsonStr_plain x hx, List.cons_append, List.append_assoc,
      List.nil_append, List.singleton_append, dropWhile_lbracket, dropWhile_quote]
    have hb := parseJsonStringBody_plain x
      ((xs.map (fun s => ',' :: jsonStr s)).flatten ++ [']']) hx
    rw [show (x ++ '"' :: ((xs.map (fun s => ',' :: jsonStr s)).flatten ++ [']'])) =
        (x ++ '"' :: ((xs.map (fun s => ',' :: jsonStr s)).flatten ++ [']'])) from rfl, hb]
    dsimp only
    rw [show ((xs.map (fun s => ',' :: jsonStr s)).flatten ++ [']'] : JsStr) =
        ((xs.map (fun s => ',' :: jsonStr s)).flatten ++ ']' :: []) from by simp]
    rw [parseJsonStrsLoop_items xs _ []
      (by have := flatten_items_length_ge xs; simp only [List.length_append]; omega)
      (fun n hn => h n (by simp [hn]))]
    rfl

lemma matchSuiteApisAt_front (q : JsStr) :
    matchSuiteApisAt (js ("<script type=\"application/json\" id=\"suite-apis\">") ++ q) =
      (uptoLitAnyCI (js ("</script>")) q).map (fun pr => pr.1) := rfl

lemma findSuiteApisJson_render (q : JsStr) (cap : JsStr)
    (h : (uptoLitAnyCI (js ("</script>")) q).map (fun pr => pr.1) = some cap) :
    findSuiteApisJson (js ("<script type=\"application/json\" id=\"suite-apis\">") ++ q) =
      some cap := by
  rw [show (js ("<script type=\"application/json\" id=\"suite-apis\">") ++ q) =
      '<' :: (js ("script type=\"application/json\" id=\"suite-apis\">") ++ q) from rfl]
  rw [findSuiteApisJson.eq_def]
  dsimp only
  rw [show ('<' :: (js ("script type=\"application/json\" id=\"suite-apis\">") ++ q)) =
      (js ("<script type=\"application/json\" id=\"suite-apis\">") ++ q) from rfl]
  rw [matchSuiteApisAt_front, h]

lemma jsonStr_chars (s : JsStr) (h : ∀ c ∈ s, plainJsonChar c = true) :
    ∀ c ∈ jsonStr s, lowerA c ≠ '<' := by
  intro c hc
  have hesc : ∀ d ∈ s, jsonEscCh d = [d] := by
    intro d hd
    have := h d hd
    simp [plainJsonChar] at this
    exact this.1
  rw [jsonStr_plain s hesc] at hc
  simp only [List.cons_append, List.mem_cons, List.mem_append, List.mem_singleton] at hc
  rcases hc with hc | hc | hc | hc
  · subst hc; decide
  · have := h c hc
    simp [plainJsonChar] at this
    exact this.2
  · subst hc; decide
  · simp at hc

lemma jsonStringify_chars (l : List JsStr) (h : ∀ n ∈ l, ∀ c ∈ n, plainJsonChar c = true) :
    ∀ c ∈ jsonStringifyStrList l, lowerA c ≠ '<' := by
  intro c hc
  cases l with
  | nil =>
    simp only [show jsonStringifyStrList [] = ['[', ']'] from rfl, List.mem_cons,
      List.mem_singleton, List.not_mem_nil, or_false] at hc
    rcases hc with hc | hc <;> (subst hc; decide)
  | cons x xs =>
    unfold jsonStringifyStrList at hc
    simp only [List.mem_cons, List.mem_append, List.mem_singleton, List.mem_flatten,
      List.mem_map] at hc
    rcases hc with (hc | hc | ⟨li, ⟨n, hn, hl⟩, hcl⟩) | hc | hc
    · subst hc; decide
    · exact jsonStr_chars x (h x (by simp)) c hc
    · subst hl
      simp only [List.mem_cons] at hcl
      rcases hcl with hcl | hcl
      · subst hcl; decide
      · exact jsonStr_chars n (h n (by simp [hn])) c hcl
    · subst hc; decide
    · simp at hc

lemma dropWhile_dropWhile_same {p : Char → Bool} (l : JsStr) :
    List.dropWhile p (List.dropWhile p l) = List.dropWhile p l := by
  induction l with
  | nil => rfl
  | cons a l ih =>
    by_cases h : p a
    · simp [List.dropWhile_cons, h, ih]
    · simp [List.dropWhile_cons, h]

lemma head?_dropWhile_false {p : Char → Bool} (l : JsStr) (a : Char)
    (h : (List.dropWhile p l).head? = some a) : p a = false := by
  induction l with
  | nil => simp at h
  | cons b l ih =>
    rw [List.dropWhile_cons] at h
    by_cases hb : p b
    · exact ih (by simpa [hb] using h)
    · simp [hb] at h
      subst h
      simpa using hb

lemma getLast?_dropWhile {p : Char → Bool} (l : JsStr)
    (h : List.dropWhile p l ≠ []) : (List.dropWhile p l).getLast? = l.getLast? := by
  induction l with
  | nil => rfl
  | cons a l ih =>
    rw [List.dropWhile_cons]
    by_cases ha : p a
    · rw [if_pos ha]
      rw [List.dropWhile_cons, if_pos ha] at h
      have hl : l ≠ [] := by
        intro hnil
        subst hnil
        exact h rfl
      rw [ih h]
      cases l with
      | nil => exact absurd rfl hl
      | cons b t => simp [List.getLast?_cons_cons]
    · rw [if_neg ha]

lemma trimR_eq_self (y : JsStr)
    (h : ∀ c, y.getLast? = some c → isJsWs c = false) : trimR y = y := by
  unfold trimR
  cases hy : y.reverse with
  | nil =>
    have : y = [] := by simpa using congrArg List.reverse hy
    simp [this]
  | cons c t =>
    have hc : y.getLast? = some c := by
      rw [← List.head?_reverse, hy]
      rfl
    rw [List.dropWhile_cons_of_neg]
    · rw [← hy, List.reverse_reverse]
    · simp [h c hc]

lemma jsTrim_idem (s : JsStr) : jsTrim (jsTrim s) = jsTrim s := by
  unfold jsTrim
  have key : trimR (trimL (trimR s)) = trimL (trimR s) := by
    apply trimR_eq_self
    intro c hc
    unfold trimL at hc
    have hne : List.dropWhile isJsWs (trimR s) ≠ [] := by
      intro hnil
      rw [hnil] at hc
      simp at hc
    rw [getLast?_dropWhile _ hne] at hc
    unfold trimR at hc
    rw [List.getLast?_reverse] at hc
    exact head?_dropWhile_false _ _ hc
  rw [key]
  unfold trimL
  rw [dropWhile_dropWhile_same]

lemma jsTrim_pretty (s : JsStr) : jsTrim (pretty s) = pretty s := by
  unfold pretty
  by_cases h : (jsTrim ((stripSC s).map (fun c => if c = '_' then ' ' else c))).isEmpty
  · simp only [h, if_true]
    decide
  · simp only [h, if_false]
    exact jsTrim_idem _

lemma pretty_ne_nil (s : JsStr) : pretty s ≠ [] := by
  unfold pretty
  by_cases h : (jsTrim ((stripSC s).map (fun c => if c = '_' then ' ' else c))).isEmpty
  · simp only [h, if_true]
    decide
  · simp only [h, if_false]
    simpa using h

lemma mem_addUnique (l : List JsStr) (x n : JsStr) :
    n ∈ addUnique l x ↔ n ∈ l ∨ n = x := by
  unfold addUnique
  by_cases h : x ∈ l
  · simp only [h, if_true]
    constructor
    · exact fun hn => Or.inl hn
    · rintro (hn | rfl)
      · exact hn
      · exact h
  · simp [h]

lemma suiteApisOf_shape (l : List TestCase) :
    ∀ n ∈ suiteApisOf l, ∃ s, n = pretty s := by
  unfold suiteApisOf
  suffices hgen : ∀ (acc : List JsStr), (∀ n ∈ acc, ∃ s, n = pretty s) →
      ∀ n ∈ l.foldl (fun s tc =>
        addUnique s (pretty (if tc.api.isEmpty then js ("Request") else tc.api))) acc,
      ∃ s, n = pretty s by
    exact hgen [] (by simp)
  induction l with
  | nil => intro acc hacc n hn; exact hacc n hn
  | cons tc l ih =>
    intro acc hacc n hn
    refine ih _ ?_ n hn
    intro m hm
    rw [mem_addUnique] at hm
    rcases hm with hm | rfl
    · exact hacc m hm
    · exact ⟨_, rfl⟩

theorem C4_registry_roundtrip (cases : List TestCase)
    (hplain : ∀ n ∈ suiteApisOf (consideredOf cases), ∀ c ∈ n, plainJsonChar c = true) :
    ∀ n, n ∈ extractSuiteApis (renderSuiteApisBlock (suiteApisOf (consideredOf cases))) ↔
      n ∈ suiteApisOf (consideredOf cases) := by
  set names := suiteApisOf (consideredOf cases) with hnames
  have hesc : ∀ n ∈ names, ∀ c ∈ n, jsonEscCh c = [c] := by
    intro n hn c hc
    have := hplain n hn c hc
    simp [plainJsonChar] at this
    exact this.1
  have hlt : ∀ c ∈ jsonStringifyStrList names, lowerA c ≠ '<' :=
    jsonStringify_chars names hplain
  have hupto : (uptoLitAnyCI (js ("</script>"))
      (jsonStringifyStrList names ++ js ("</script>"))).map (fun pr => pr.1) =
      some (jsonStringifyStrList names) := by
    have hx := uptoLitAnyCI_exact (js ("/script>")) (jsonStringifyStrList names) [] hlt
    simp only [List.append_nil] at hx
    rw [show ('<' :: js ("/script>")) = js ("</script>") from rfl] at hx
    rw [hx]
    rfl
  have hfind : findSuiteApisJson (renderSuiteApisBlock names) =
      some (jsonStringifyStrList names) := by
    unfold renderSuiteApisBlock
    rw [List.append_assoc]
    exact findSuiteApisJson_render _ _ hupto
  intro n
  unfold extractSuiteApis
  rw [hfind]
  dsimp only
  rw [jsonParseStrList_roundtrip names hesc]
  dsimp only
  have htrim : names.map jsTrim = names := by
    have : names.map jsTrim = names.map id := by
      apply List.map_congr_left
      intro a ha
      obtain ⟨s, rfl⟩ := suiteApisOf_shape _ a ha
      exact jsTrim_pretty s
    rw [this, List.map_id]
  rw [htrim]
  rw [List.filter_eq_self.mpr]
  intro a ha
  obtain ⟨s, rfl⟩ := suiteApisOf_shape _ a ha
  simpa using pretty_ne_nil s

theorem C5_combined_api_aggregate :
    apiKeyMapOf [rowInv1, rowInv2] = [(js ("Billing|Invoices|Get Invoice"), ⟨8, 2, 10⟩)] ∧
    aggregateApiStatsFromRows [rowInv1, rowInv2] = ⟨1, 0, 1, 0⟩ := by decide

theorem C6_registry_precedence (htmlText : JsStr) (rows : List Row) :
    (extractSuiteApis htmlText ≠ [] → apiListFallback htmlText rows = extractSuiteApis htmlText) ∧
    (extractSuiteApis htmlText = [] → apiListFallback htmlText rows = dedupApis rows) := by
  unfold apiListFallback
  constructor
  · intro h
    simp [h]
  · intro h
    simp [h]

theorem C6_witness :
    extractSuiteApis regBlockC6 ≠ [] ∧
    apiListFallback regBlockC6 [] = extractSuiteApis regBlockC6 :=
  ⟨by decide, (C6_registry_precedence regBlockC6 []).1 (by decide)⟩

lemma roundPct_le_100 (p t : Nat) (hpt : p ≤ t) (ht : 0 < t) : roundPct p t ≤ 100 := by
  unfold roundPct jsRoundDiv
  have h2 : 0 < 2 * t := by omega
  have hlt : 2 * (100 * p) + t < 101 * (2 * t) := by omega
  have := (Nat.div_lt_iff_lt_mul h2).mpr hlt
  omega

lemma accUpdate_inv (tc : TestCase) (a : FolderAcc)
    (h : a.total = a.pass + a.fail ∧ a.pass ≤ a.total) :
    (accUpdate tc a).total = (accUpdate tc a).pass + (accUpdate tc a).fail ∧
      (accUpdate tc a).pass ≤ (accUpdate tc a).total := by
  unfold accUpdate
  by_cases hp : tc.result = TCResult.Pass <;> simp [hp] <;> omega

lemma mapUpsert_inv (m : List FolderAcc) (g : JsStr) (tc : TestCase)
    (hm : ∀ a ∈ m, a.total = a.pass + a.fail ∧ a.pass ≤ a.total) :
    ∀ a ∈ mapUpsert m g tc, a.total = a.pass + a.fail ∧ a.pass ≤ a.total := by
  induction m with
  | nil =>
    intro a ha
    simp only [mapUpsert, List.mem_singleton] at ha
    subst ha
    exact accUpdate_inv tc _ (by simp)
  | cons b rest ih =>
    intro a ha
    rw [mapUpsert] at ha
    by_cases hb : b.group = g
    · rw [if_pos hb] at ha
      rcases List.mem_cons.mp ha with rfl | ha
      · exact accUpdate_inv tc b (hm b (by simp))
      · exact hm a (by simp [ha])
    · rw [if_neg hb] at ha
      rcases List.mem_cons.mp ha with rfl | ha
      · exact hm a (by simp)
      · exact ih (fun x hx => hm x (by simp [hx])) a ha

lemma byFolderOf_inv (l : List TestCase) :
    ∀ a ∈ byFolderOf l, a.total = a.pass + a.fail ∧ a.pass ≤ a.total := by
  unfold byFolderOf
  suffices hgen : ∀ (m : List FolderAcc),
      (∀ a ∈ m, a.total = a.pass + a.fail ∧ a.pass ≤ a.total) →
      ∀ a ∈ l.foldl (fun m tc => mapUpsert m (groupKeyOf tc) tc) m,
        a.total = a.pass + a.fail ∧ a.pass ≤ a.total by
    exact hgen [] (by simp)
  induction l with
  | nil => intro m hm a ha; exact hm a ha
  | cons tc l ih =>
    intro m hm a ha
    exact ih _ (mapUpsert_inv m _ tc hm) a ha

theorem C9_folder_summary_invariants (cases : List TestCase) (r : FolderRow)
    (hr : r ∈ folderRowsOf (consideredOf cases)) :
    r.total = r.pass + r.fail ∧ r.passPct ≤ 100 ∧
    (0 < r.total → r.passPct = roundPct r.pass r.total) ∧
    (r.total = 0 → r.passPct = 0) := by
  unfold folderRowsOf at hr
  rw [List.mem_map] at hr
  obtain ⟨a, ha, rfl⟩ := hr
  obtain ⟨h1, h2⟩ := byFolderOf_inv _ a ha
  unfold folderRowOfAcc
  refine ⟨h1, ?_, ?_, ?_⟩
  · by_cases h0 : a.total = 0
    · simp [h0]
    · simp only [h0, if_false]
      exact roundPct_le_100 a.pass a.total h2 (Nat.pos_of_ne_zero h0)
  · intro h0
    simp only at h0 ⊢
    rw [if_neg (by omega)]
  · intro h0
    simp only at h0 ⊢
    rw [if_pos h0]

theorem C9_witness :
    folderRowA ∈ folderRowsOf (consideredOf (testCasesOf [some entryA])) ∧
    (folderRowA.total = folderRowA.pass + folderRowA.fail ∧ folderRowA.passPct ≤ 100 ∧
      (0 < folderRowA.total → folderRowA.passPct = roundPct folderRowA.pass folderRowA.total) ∧
      (folderRowA.total = 0 → folderRowA.passPct = 0)) :=
  ⟨by decide, C9_folder_summary_invariants (testCasesOf [some entryA]) folderRowA (by decide)⟩

theorem C4_witness :
    (∀ n ∈ suiteApisOf (consideredOf (testCasesOf [some entryA])),
      ∀ c ∈ n, plainJsonChar c = true) ∧
    (∀ n, n ∈ extractSuiteApis (renderSuiteApisBlock
        (suiteApisOf (consideredOf (testCasesOf [some entryA])))) ↔
      n ∈ suiteApisOf (consideredOf (testCasesOf [some entryA]))) :=
  ⟨by decide, C4_registry_roundtrip _ (by decide)⟩

set_option maxRecDepth 10000 in
/-- C7, counterexample.  An assertion message that itself contains the
HTML-entity-escaped marker `+ --&gt; Failing` does NOT flag its API: the
builder escapes the message once more when rendering (`&` becomes `&amp;`),
so the document holds `+ --&amp;gt; Failing`, which neither alternative of
the detector's SOFT regex matches. -/
theorem C7_counterexample :
    ((testCaseOf (some (softEntry "+ --&gt; Failing"))).checks.any
      (fun c => containsCI (js ("+ --&gt; Failing")) c.message)) = true ∧
    detectSoftFailApis (softDoc "+ --&gt; Failing") [] = [] := by decide

set_option maxRecDepth 10000 in
/-- C7, amended.  An assertion message containing the literal marker
`+ --> Failing` flags its API (the builder renders it entity-escaped as
`+ --&gt; Failing`, which the SOFT regex's second alternative matches), while
a message merely containing `Failing` without the marker sequence flags
nothing; a message containing the already-entity-escaped form is not flagged
(see the counterexample). -/
theorem C7_amended_soft_marker :
    ((testCaseOf (some (softEntry "Body schema + --> Failing"))).checks.any
      (fun c => containsCI (js ("+ --> Failing")) c.message)) = true ∧
    detectSoftFailApis (softDoc "Body schema + --> Failing") [] =
      [js ("Billing/Get Invoice")] ∧
    ((testCaseOf (some (softEntry "Failing due to timeout"))).checks.any
      (fun c => containsCI (js ("Failing")) c.message)) = true ∧
    detectSoftFailApis (softDoc "Failing due to timeout") [] = [] := by decide

/-- C10, counterexample.  With no anchor segment and collection name
`Suite - `, the claim's "last `-`-separated segment" is the string `" "` (one
space), but the code trims it, finds it empty (falsy), and produces
`Module`. -/
theorem C10_counterexample :
    cexSegsC10.all (fun seg => !segHasAnchor seg) = true ∧
    (List.splitOn '-' (js ("Suite - "))).getLastD [] = js (" ") ∧
    deriveModuleFromSegs cexSegsC10 (some (js ("Suite - "))) = js ("Module") ∧
    js ("Module") ≠ js (" ") := by decide

/-- C10, amended.  For every resolved output path none of whose segments
contains the anchor name `newmancollectionlist` (case-insensitively), the
grouping key defaults to `Misc`, and the module key falls back to the TRIMMED
last `-`-separated segment of the collection's name — or `Module` when that
name is absent or the trimmed segment is empty. -/
theorem C10_amended_no_anchor_defaults (segs : List JsStr) (collName : Option JsStr)
    (h : segs.all (fun seg => !segHasAnchor seg) = true) :
    deriveParentFromSegs segs = js ("Misc") ∧
    deriveModuleFromSegs segs collName =
      (match collName with
       | none => js ("Module")
       | some n =>
         let t := jsTrim ((List.splitOn '-' n).getLastD [])
         if t.isEmpty then js ("Module") else t) := by
  have hidx : segs.findIdx? segHasAnchor = none := by
    rw [List.findIdx?_eq_none_iff]
    intro x hx
    have := List.all_eq_true.mp h x hx
    simpa using this
  constructor
  · unfold deriveParentFromSegs
    rw [hidx]
  · unfold deriveModuleFromSegs
    rw [hidx]
    rfl

/-- Witness for the amended C10 at a concrete anchor-free path with
collection name `API-Billing`. -/
theorem C10_amended_witness :
    cexSegsC10.all (fun seg => !segHasAnchor seg) = true ∧
    deriveParentFromSegs cexSegsC10 = js ("Misc") :=
  ⟨by decide, (C10_amended_no_anchor_defaults cexSegsC10 (some (js ("API-Billing"))) (by decide)).1⟩

lemma decCh_mem_tenDigits (d : Nat) : decCh d ∈ tenDigits := by
  unfold decCh
  split <;> decide

lemma natDigitsRev_chars (n : Nat) : ∀ c ∈ natDigitsRev n, c ∈ tenDigits := by
  induction n using Nat.strong_induction_on with
  | _ n ih =>
    by_cases hn : n = 0
    · subst hn
      intro c hc
      simp [natDigitsRev, natDigitsRevFuel] at hc
    · rw [natDigitsRev_eq n hn]
      intro c hc
      rcases List.mem_cons.mp hc with rfl | hc
      · exact decCh_mem_tenDigits _
      · exact ih (n / 10) (Nat.div_lt_self (Nat.pos_of_ne_zero hn) (by norm_num)) c hc

lemma natDigits_chars (n : Nat) : ∀ c ∈ natDigits n, c ∈ tenDigits := by
  unfold natDigits
  by_cases hn : n = 0
  · subst hn
    intro c hc
    simp at hc
    subst hc
    decide
  · rw [if_neg hn]
    intro c hc
    exact natDigitsRev_chars n c (List.mem_reverse.mp hc)

lemma natDigits_ne_nil (n : Nat) : natDigits n ≠ [] := by
  unfold natDigits
  by_cases hn : n = 0
  · simp [hn]
  · rw [if_neg hn]
    intro h
    have h2 : natDigitsRev n = [] := by simpa using congrArg List.reverse h
    rw [natDigitsRev_eq n hn] at h2
    exact List.cons_ne_nil _ _ h2

lemma digVal_decCh (d : Nat) (h : d < 10) : digVal (decCh d) = d := by
  interval_cases d <;> decide

lemma decVal_append_one (xs : List Char) (c : Char) :
    decVal (xs ++ [c]) = 10 * decVal xs + digVal c := by
  unfold decVal
  rw [List.foldl_append]
  simp [Nat.mul_comm]

lemma decVal_natDigitsRev (n : Nat) : decVal (natDigitsRev n).reverse = n := by
  induction n using Nat.strong_induction_on with
  | _ n ih =>
    by_cases hn : n = 0
    · subst hn
      rw [show natDigitsRev 0 = [] from rfl]
      rfl
    · rw [natDigitsRev_eq n hn]
      rw [List.reverse_cons, decVal_append_one]
      rw [ih (n / 10) (Nat.div_lt_self (Nat.pos_of_ne_zero hn) (by norm_num))]
      rw [digVal_decCh (n % 10) (Nat.mod_lt n (by norm_num))]
      omega

lemma decVal_natDigits (n : Nat) : decVal (natDigits n) = n := by
  unfold natDigits
  by_cases hn : n = 0
  · subst hn
    rfl
  · rw [if_neg hn]
    exact decVal_natDigitsRev n

lemma natDigitsRev_length_le (k : Nat) : ∀ n, n < 10 ^ k → (natDigitsRev n).length ≤ k := by
  induction k with
  | zero =>
    intro n hn
    have : n = 0 := by omega
    subst this
    simp [natDigitsRev, natDigitsRevFuel]
  | succ k ih =>
    intro n hn
    by_cases h0 : n = 0
    · subst h0
      simp [natDigitsRev, natDigitsRevFuel]
    · rw [natDigitsRev_eq n h0]
      simp only [List.length_cons]
      have : n / 10 < 10 ^ k := by
        rw [Nat.div_lt_iff_lt_mul (by norm_num)]
        calc n < 10 ^ (k + 1) := hn
        _ = 10 ^ k * 10 := by ring
      have := ih (n / 10) this
      omega

lemma natDigits_length_le_three (n : Nat) (h : n < 1000) : (natDigits n).length ≤ 3 := by
  unfold natDigits
  by_cases h0 : n = 0
  · simp [h0]
  · rw [if_neg h0]
    simpa using natDigitsRev_length_le 3 n (by norm_num at h ⊢; omega)

lemma fmtNat_small (n : Nat) (h : n < 1000) : fmtNat n = natDigits n := by
  unfold fmtNat groupRev
  rw [groupRevFuel_small _ _ (by simpa using natDigits_length_le_three n h)]
  exact List.reverse_reverse _

lemma tenDigits_ne_comma : ∀ c ∈ tenDigits, c ≠ ',' := by decide

lemma groupRev_chars_aux (k : Nat) : ∀ (ds : List Char), ds.length ≤ k →
    ∀ c ∈ groupRev ds, c ∈ ds ∨ c = ',' := by
  induction k with
  | zero =>
    intro ds hk c hc
    have : ds = [] := List.length_eq_zero.mp (by omega)
    subst this
    rw [groupRev_eq] at hc
    simp at hc
  | succ k ih =>
    intro ds hk c hc
    rw [groupRev_eq] at hc
    by_cases hs : ds.length ≤ 3
    · rw [if_pos hs] at hc
      exact Or.inl hc
    · rw [if_neg hs] at hc
      simp only [List.mem_append, List.mem_cons] at hc
      rcases hc with hc | hc | hc
      · exact Or.inl (List.mem_of_mem_take hc)
      · exact Or.inr hc
      · rcases ih (ds.drop 3) (by simp; omega) c hc with h2 | h2
        · exact Or.inl (List.mem_of_mem_drop h2)
        · exact Or.inr h2

lemma groupRev_chars (ds : List Char) : ∀ c ∈ groupRev ds, c ∈ ds ∨ c = ',' :=
  groupRev_chars_aux ds.length ds (le_refl _)

lemma fmtNat_chars (n : Nat) : ∀ c ∈ fmtNat n, c ∈ tenDigits ∨ c = ',' := by
  unfold fmtNat
  intro c hc
  rw [List.mem_reverse] at hc
  rcases groupRev_chars _ c hc with h | h
  · exact Or.inl (natDigits_chars n c (List.mem_reverse.mp h))
  · exact Or.inr h

lemma stripCommas_app (a b : JsStr) : stripCommas (a ++ b) = stripCommas a ++ stripCommas b := by
  unfold stripCommas
  exact List.filter_append _ _

lemma stripCommas_of_no_comma (a : JsStr) (h : ∀ c ∈ a, c ≠ ',') : stripCommas a = a :=
  List.filter_eq_self.mpr (fun c hc => by simpa using h c hc)

lemma stripCommas_groupRev_aux (k : Nat) : ∀ (ds : List Char), ds.length ≤ k →
    (∀ c ∈ ds, c ≠ ',') → stripCommas (groupRev ds) = ds := by
  induction k with
  | zero =>
    intro ds hk h
    have : ds = [] := List.length_eq_zero.mp (by omega)
    subst this
    rfl
  | succ k ih =>
    intro ds hk h
    rw [groupRev_eq]
    by_cases hs : ds.length ≤ 3
    · rw [if_pos hs]
      exact stripCommas_of_no_comma ds h
    · rw [if_neg hs, stripCommas_app]
      rw [show stripCommas (',' :: groupRev (ds.drop 3)) = stripCommas (groupRev (ds.drop 3))
        from by unfold stripCommas; simp]
      rw [stripCommas_of_no_comma _ (fun c hc => h c (List.mem_of_mem_take hc))]
      rw [ih (ds.drop 3) (by simp; omega) (fun c hc => h c (List.mem_of_mem_drop hc))]
      exact List.take_append_drop 3 ds

lemma stripCommas_reverse (a : JsStr) : stripCommas a.reverse = (stripCommas a).reverse := by
  unfold stripCommas
  exact List.filter_reverse _ _

lemma stripCommas_fmtNat (n : Nat) : stripCommas (fmtNat n) = natDigits n := by
  unfold fmtNat
  rw [stripCommas_reverse,
    stripCommas_groupRev_aux (natDigits n).reverse.length _ (le_refl _)
      (fun c hc => tenDigits_ne_comma c (natDigits_chars n c (List.mem_reverse.mp hc))),
    List.reverse_reverse]

lemma lowerA_eq_lt (c : Char) (h : lowerA c = '<') : c = '<' := by
  unfold lowerA at h
  by_cases hc : 'A' ≤ c ∧ c ≤ 'Z'
  · rw [if_pos hc] at h
    have hb1 : 65 ≤ c.toNat := (Char.le_def).mp hc.1
    have hb2 : c.toNat ≤ 90 := (Char.le_def).mp hc.2
    have hv : (c.toNat + 32).isValidChar := Or.inl (by omega)
    have ht : (Char.ofNat (c.toNat + 32)).toNat = c.toNat + 32 := by
      unfold Char.ofNat
      rw [dif_pos hv]
      rfl
    rw [h] at ht
    rw [show ('<' : Char).toNat = 60 from rfl] at ht
    omega
  · rw [if_neg hc] at h
    exact h

lemma lowerA_ne_lt (c : Char) (h : c ≠ '<') : lowerA c ≠ '<' :=
  fun he => h (lowerA_eq_lt c he)

lemma escCh_no_lt (c : Char) : ∀ d ∈ escCh c, d ≠ '<' := by
  intro d hd
  unfold escCh at hd
  split_ifs at hd with h1 h2 h3 h4 h5
  · revert hd
    revert d
    decide
  · revert hd
    revert d
    decide
  · revert hd
    revert d
    decide
  · revert hd
    revert d
    decide
  · revert hd
    revert d
    decide
  · simp at hd
    subst hd
    exact h2

lemma escCh_no_gt (c : Char) : ∀ d ∈ escCh c, d ≠ '>' := by
  intro d hd
  unfold escCh at hd
  split_ifs at hd with h1 h2 h3 h4 h5
  · revert hd
    revert d
    decide
  · revert hd
    revert d
    decide
  · revert hd
    revert d
    decide
  · revert hd
    revert d
    decide
  · revert hd
    revert d
    decide
  · simp at hd
    subst hd
    exact h3

lemma escCh_nl (c d : Char) (hc : isNL c = false) (hd : d ∈ escCh c) : isNL d = false := by
  unfold escCh at hd
  split_ifs at hd with h1 h2 h3 h4 h5
  · revert hd
    revert d
    decide
  · revert hd
    revert d
    decide
  · revert hd
    revert d
    decide
  · revert hd
    revert d
    decide
  · revert hd
    revert d
    decide
  · simp at hd
    subst hd
    exact hc

lemma esc_no_lt (s : JsStr) : ∀ c ∈ esc s, c ≠ '<' := by
  intro c hc
  unfold esc at hc
  simp only [List.mem_flatten, List.mem_map] at hc
  obtain ⟨l, ⟨d, hd, rfl⟩, hcl⟩ := hc
  exact escCh_no_lt d c hcl

lemma esc_no_gt (s : JsStr) : ∀ c ∈ esc s, c ≠ '>' := by
  intro c hc
  unfold esc at hc
  simp only [List.mem_flatten, List.mem_map] at hc
  obtain ⟨l, ⟨d, hd, rfl⟩, hcl⟩ := hc
  exact escCh_no_gt d c hcl

lemma esc_no_nl (s : JsStr) (hs : ∀ c ∈ s, isNL c = false) : ∀ c ∈ esc s, isNL c = false := by
  intro c hc
  unfold esc at hc
  simp only [List.mem_flatten, List.mem_map] at hc
  obtain ⟨l, ⟨d, hd, rfl⟩, hcl⟩ := hc
  exact escCh_nl d c (hs d hd) hcl

lemma idfyAux_chars (b : Bool) (l : List Char) :
    ∀ c ∈ idfyAux b l, isLowAlnum c = true ∨ c = '-' := by
  induction l generalizing b with
  | nil => intro c hc; simp [idfyAux] at hc
  | cons a t ih =>
    intro c hc
    unfold idfyAux at hc
    by_cases ha : isLowAlnum a
    · rw [if_pos ha] at hc
      rcases List.mem_cons.mp hc with rfl | hc
      · exact Or.inl ha
      · exact ih _ c hc
    · rw [if_neg ha] at hc
      by_cases hb : b
      · rw [if_pos hb] at hc
        exact ih _ c hc
      · rw [if_neg hb] at hc
        rcases List.mem_cons.mp hc with rfl | hc
        · exact Or.inr rfl
        · exact ih _ c hc

lemma idfy_chars (s : JsStr) : ∀ c ∈ idfy s, isLowAlnum c = true ∨ c = '-' := by
  intro c hc
  unfold idfy at hc
  have base := idfyAux_chars false (s.map lowerA)
  set t := idfyAux false (s.map lowerA) with ht
  set t2 := if t.head? = some '-' then t.tail else t with ht2
  have h2 : ∀ d ∈ t2, isLowAlnum d = true ∨ d = '-' := by
    intro d hd
    rw [ht2] at hd
    by_cases hh : t.head? = some '-'
    · rw [if_pos hh] at hd
      exact base d (List.mem_of_mem_tail hd)
    · rw [if_neg hh] at hd
      exact base d hd
  by_cases hl : t2.getLast? = some '-'
  · rw [if_pos hl] at hc
    exact h2 c (List.mem_of_mem_dropLast hc)
  · rw [if_neg hl] at hc
    exact h2 c hc

lemma idfy_no_gt (s : JsStr) : ∀ c ∈ idfy s, c ≠ '>' := by
  intro c hc
  rcases idfy_chars s c hc with h | rfl
  · intro he
    subst he
    exact absurd h (by decide)
  · decide

lemma idfy_no_lt (s : JsStr) : ∀ c ∈ idfy s, c ≠ '<' := by
  intro c hc
  rcases idfy_chars s c hc with h | rfl
  · intro he
    subst he
    exact absurd h (by decide)
  · decide

lemma takeWhile_append_all {p : Char → Bool} (a s : JsStr) (ha : ∀ c ∈ a, p c = true) :
    List.takeWhile p (a ++ s) = a ++ List.takeWhile p s := by
  induction a with
  | nil => rfl
  | cons c t ih =>
    rw [List.cons_append, List.takeWhile_cons, if_pos (ha c (by simp)), List.cons_append,
      ih (fun c hc => ha c (by simp [hc]))]

lemma dropWhile_append_all {p : Char → Bool} (a s : JsStr) (ha : ∀ c ∈ a, p c = true) :
    List.dropWhile p (a ++ s) = List.dropWhile p s := by
  induction a with
  | nil => rfl
  | cons c t ih =>
    rw [List.cons_append, List.dropWhile_cons, if_pos (ha c (by simp))]
    exact ih (fun c hc => ha c (by simp [hc]))

lemma takeWhile_head_false {p : Char → Bool} (s : JsStr)
    (hs : ∀ c, s.head? = some c → p c = false) : List.takeWhile p s = [] := by
  cases s with
  | nil => rfl
  | cons c t =>
    rw [List.takeWhile_cons, if_neg (by simp [hs c rfl])]

lemma dropWhile_head_false {p : Char → Bool} (s : JsStr)
    (hs : ∀ c, s.head? = some c → p c = false) : List.dropWhile p s = s := by
  cases s with
  | nil => rfl
  | cons c t =>
    exact List.dropWhile_cons_of_neg (by simp [hs c rfl])

lemma takeDigits1_exact (ds rest : JsStr) (hne : ds ≠ []) (hds : ∀ c ∈ ds, isDig c = true)
    (hrest : ∀ c, rest.head? = some c → isDig c = false) :
    takeDigits1 (ds ++ rest) = some (ds, rest) := by
  unfold takeDigits1
  rw [takeWhile_append_all ds rest hds, takeWhile_head_false rest hrest,
    dropWhile_append_all ds rest hds, dropWhile_head_false rest hrest]
  simp [hne]

lemma takeNumClass1_exact (ds rest : JsStr) (hne : ds ≠ [])
    (hds : ∀ c ∈ ds, isNumClass c = true)
    (hrest : ∀ c, rest.head? = some c → isNumClass c = false) :
    takeNumClass1 (ds ++ rest) = some (ds, rest) := by
  unfold takeNumClass1
  rw [takeWhile_append_all ds rest hds, takeWhile_head_false rest hrest,
    dropWhile_append_all ds rest hds, dropWhile_head_false rest hrest]
  simp [hne]

lemma skipToGt_append_no_gt (a s : JsStr) (ha : ∀ c ∈ a, c ≠ '>') :
    skipToGt (a ++ s) = skipToGt s := by
  induction a with
  | nil => rfl
  | cons c t ih =>
    rw [List.cons_append]
    have step : skipToGt (c :: (t ++ s)) = skipToGt (t ++ s) := by
      conv_lhs => rw [skipToGt.eq_def]
      dsimp only
      rw [if_neg (ha c (by simp))]
    rw [step]
    exact ih (fun c hc => ha c (by simp [hc]))

lemma stripPrefixCI_none_of_mismatch (lit seg X : JsStr)
    (h : prefixMismatchWithin lit seg = true) : stripPrefixCI lit (seg ++ X) = none := by
  induction lit generalizing seg with
  | nil =>
    cases seg with
    | nil => simp [prefixMismatchWithin] at h
    | cons c t => simp [prefixMismatchWithin] at h
  | cons l ls ih =>
    cases seg with
    | nil => simp [prefixMismatchWithin] at h
    | cons c t =>
      unfold prefixMismatchWithin at h
      by_cases hc : lowerA c = lowerA l
      · rw [if_pos hc] at h
        rw [List.cons_append]
        unfold stripPrefixCI
        rw [if_pos hc]
        exact ih t h
      · rw [List.cons_append]
        exact stripPrefixCI_cons_none l c ls (t ++ X) hc

lemma uptoLitCI_append_blocked (lit a s : JsStr) (hb : litBlockedIn lit a = true)
    (hnl : ∀ c ∈ a, isNL c = false) :
    uptoLitCI lit (a ++ s) = (uptoLitCI lit s).map (fun pr => (a ++ pr.1, pr.2)) := by
  induction a with
  | nil =>
    simp only [List.nil_append]
    cases h : uptoLitCI lit s with
    | none => rfl
    | some pr => rfl
  | cons c t ih =>
    unfold litBlockedIn at hb
    rw [Bool.and_eq_true] at hb
    have h0 := stripPrefixCI_none_of_mismatch lit (c :: t) s hb.1
    rw [List.cons_append] at h0
    rw [List.cons_append]
    conv_lhs => rw [uptoLitCI.eq_def]
    dsimp only
    rw [h0]
    rw [if_neg (by simp [hnl c (by simp)])]
    rw [ih hb.2 (fun d hd => hnl d (by simp [hd]))]
    cases h : uptoLitCI lit s with
    | none => rfl
    | some pr => rfl

lemma litBlockedIn_of_no_lt (ls a : JsStr) (h : ∀ c ∈ a, c ≠ '<') :
    litBlockedIn ('<' :: ls) a = true := by
  induction a with
  | nil => rfl
  | cons c t ih =>
    unfold litBlockedIn
    rw [Bool.and_eq_true]
    constructor
    · unfold prefixMismatchWithin
      rw [if_neg]
      intro he
      exact lowerA_ne_lt c (h c (by simp)) (by rw [he]; rfl)
    · exact ih (fun c hc => h c (by simp [hc]))

lemma uptoLitCI_at_lit (l : Char) (ls t : JsStr) :
    uptoLitCI (l :: ls) ((l :: ls) ++ t) = some ([], t) := by
  rw [List.cons_append]
  unfold uptoLitCI
  rw [show stripPrefixCI (l :: ls) (l :: (ls ++ t)) = some t from by
    have := stripPrefixCI_self (l :: ls) t
    simpa using this]

lemma tenDigits_isDig : ∀ c ∈ tenDigits, isDig c = true := by decide

lemma tenDigits_isNumClass : ∀ c ∈ tenDigits, isNumClass c = true := by decide

lemma tenDigits_no_lt : ∀ c ∈ tenDigits, c ≠ '<' := by decide

lemma tenDigits_no_nl : ∀ c ∈ tenDigits, isNL c = false := by decide

lemma fmtNat_ne_nil (n : Nat) : fmtNat n ≠ [] := by
  intro h
  apply natDigits_ne_nil n
  rw [← stripCommas_fmtNat n, h]
  rfl

lemma fmtNat_isNumClass (n : Nat) : ∀ c ∈ fmtNat n, isNumClass c = true := by
  intro c hc
  rcases fmtNat_chars n c hc with h | rfl
  · exact tenDigits_isNumClass c h
  · decide

lemma skipToGt_cons_gt (s : JsStr) : skipToGt ('>' :: s) = some s := rfl

lemma head_lt_not_dig (Y : JsStr) (hY : Y.head? = some '<') :
    ∀ c, Y.head? = some c → isDig c = false := by
  intro c hc
  rw [hY] at hc
  cases hc
  decide

lemma head_lt_not_numclass (Y : JsStr) (hY : Y.head? = some '<') :
    ∀ c, Y.head? = some c → isNumClass c = false := by
  intro c hc
  rw [hY] at hc
  cases hc
  decide

lemma head_pct_not_dig (Y : JsStr) (hY : Y.head? = some '%') :
    ∀ c, Y.head? = some c → isDig c = false := by
  intro c hc
  rw [hY] at hc
  cases hc
  decide

lemma dropWs_head_lt (w Y : JsStr) (hw : ∀ c ∈ w, isJsWs c = true) (hY : Y.head? = some '<') :
    List.dropWhile isJsWs (w ++ Y) = Y := by
  rw [dropWhile_append_all _ _ hw]
  apply dropWhile_head_false
  intro c hc
  rw [hY] at hc
  cases hc
  decide

lemma takeDigits1_fmt (n : Nat) (hn : n < 1000) (Y : JsStr) (hY : Y.head? = some '<') :
    takeDigits1 (fmtNat n ++ Y) = some (natDigits n, Y) := by
  rw [fmtNat_small n hn]
  exact takeDigits1_exact _ _ (natDigits_ne_nil n)
    (fun c hc => tenDigits_isDig c (natDigits_chars n c hc)) (head_lt_not_dig Y hY)

lemma takeNumClass1_fmt (n : Nat) (Y : JsStr) (hY : Y.head? = some '<') :
    takeNumClass1 (fmtNat n ++ Y) = some (fmtNat n, Y) :=
  takeNumClass1_exact _ _ (fmtNat_ne_nil n) (fmtNat_isNumClass n) (head_lt_not_numclass Y hY)

lemma strip_td (W : JsStr) : stripPrefixCI (js ("<td")) (js ("<td>") ++ W) = some ('>' :: W) := rfl

lemma matchNumCell_span (attrs : JsStr) (ha : ∀ c ∈ attrs, c ≠ '>') (n : Nat) (hn : n < 1000)
    (Z : JsStr) :
    matchNumCell (js ("<td>") ++ (js ("<span") ++ (attrs ++ ('>' :: (fmtNat n ++
      (js ("</span>") ++ (js ("</td>") ++ Z))))))) = some (n, Z) := by
  unfold matchNumCell
  rw [strip_td]
  dsimp only
  rw [skipToGt_cons_gt]
  dsimp only
  rw [show skipOptSpanOpen (js ("<span") ++ (attrs ++ ('>' :: (fmtNat n ++
      (js ("</span>") ++ (js ("</td>") ++ Z)))))) =
      fmtNat n ++ (js ("</span>") ++ (js ("</td>") ++ Z)) from by
    unfold skipOptSpanOpen
    rw [stripPrefixCI_self]
    dsimp only
    rw [skipToGt_append_no_gt attrs _ ha, skipToGt_cons_gt]]
  rw [takeDigits1_fmt n hn (js ("</span>") ++ (js ("</td>") ++ Z)) rfl]
  dsimp only
  rw [show skipOptSpanClose (js ("</span>") ++ (js ("</td>") ++ Z)) = js ("</td>") ++ Z from by
    unfold skipOptSpanClose
    rw [stripPrefixCI_self]]
  rw [stripPrefixCI_self]
  dsimp only
  rw [decVal_natDigits]

lemma matchPlainNumCell_render (n : Nat) (hn : n < 1000) (Z : JsStr) :
    matchPlainNumCell (js ("<td>") ++ (fmtNat n ++ (js ("</td>") ++ Z))) = some (n, Z) := by
  unfold matchPlainNumCell
  rw [show (js ("<td>") ++ (fmtNat n ++ (js ("</td>") ++ Z))) =
      js ("<td") ++ ('>' :: (fmtNat n ++ (js ("</td>") ++ Z))) from by
    simp [js, List.append_assoc]]
  rw [stripPrefixCI_self]
  dsimp only
  rw [skipToGt_cons_gt]
  dsimp only
  rw [takeDigits1_fmt n hn (js ("</td>") ++ Z) rfl]
  dsimp only
  rw [stripPrefixCI_self]
  dsimp only
  rw [decVal_natDigits]

lemma matchPctCell_render (n : Nat) (hn : n < 1000) (Z : JsStr) :
    matchPctCell (js ("<td>") ++ (fmtNat n ++ (js ("%") ++ (js ("</td>") ++ Z)))) =
      some (n, Z) := by
  unfold matchPctCell
  rw [show (js ("<td>") ++ (fmtNat n ++ (js ("%") ++ (js ("</td>") ++ Z)))) =
      js ("<td") ++ ('>' :: (fmtNat n ++ ('%' :: (js ("</td>") ++ Z)))) from by
    simp [js, List.append_assoc]]
  rw [stripPrefixCI_self]
  dsimp only
  rw [skipToGt_cons_gt]
  dsimp only
  rw [show fmtNat n ++ '%' :: (js ("</td>") ++ Z) =
      fmtNat n ++ ('%' :: (js ("</td>") ++ Z)) from rfl]
  rw [show takeDigits1 (fmtNat n ++ ('%' :: (js ("</td>") ++ Z))) =
      some (natDigits n, '%' :: (js ("</td>") ++ Z)) from by
    rw [fmtNat_small n hn]
    exact takeDigits1_exact _ _ (natDigits_ne_nil n)
      (fun c hc => tenDigits_isDig c (natDigits_chars n c hc))
      (head_pct_not_dig _ rfl)]
  show some (decVal (natDigits n), Z) = some (n, Z)
  rw [decVal_natDigits]

lemma matchAvgCell_render (n : Nat) (Z : JsStr) :
    matchAvgCell (js ("<td>") ++ (fmtNat n ++ (js ("</td>") ++ Z))) = some (n, Z) := by
  unfold matchAvgCell
  rw [show (js ("<td>") ++ (fmtNat n ++ (js ("</td>") ++ Z))) =
      js ("<td") ++ ('>' :: (fmtNat n ++ (js ("</td>") ++ Z))) from by
    simp [js, List.append_assoc]]
  rw [stripPrefixCI_self]
  dsimp only
  rw [skipToGt_cons_gt]
  dsimp only
  rw [takeNumClass1_fmt n (js ("</td>") ++ Z) rfl]
  show some (decVal (stripCommas (fmtNat n)), Z) = some (n, Z)
  rw [stripCommas_fmtNat, decVal_natDigits]

lemma uptoLit_td_first_cell (p : JsStr) (len : Nat) (hnl : ∀ c ∈ p, isNL c = false) (Z : JsStr) :
    uptoLitCI (js ("</td>"))
      (esc p ++ (js (" <span class=\"badge\">") ++ (natDigits len ++ (js ("</span>") ++
        (js ("</td>") ++ Z))))) =
      some (esc p ++ (js (" <span class=\"badge\">") ++ (natDigits len ++ js ("</span>"))), Z) := by
  have hlit : js ("</td>") = '<' :: js ("/td>") := rfl
  rw [show uptoLitCI (js ("</td>")) = uptoLitCI ('<' :: js ("/td>")) from rfl]
  rw [uptoLitCI_append_blocked _ _ _
    (litBlockedIn_of_no_lt _ _ (esc_no_lt p)) (esc_no_nl p hnl)]
  rw [uptoLitCI_append_blocked _ _ _ (by decide) (by decide)]
  rw [uptoLitCI_append_blocked _ _ _
    (litBlockedIn_of_no_lt _ _ (fun c hc => tenDigits_no_lt c (natDigits_chars len c hc)))
    (fun c hc => tenDigits_no_nl c (natDigits_chars len c hc))]
  rw [uptoLitCI_append_blocked _ _ _ (by decide) (by decide)]
  rw [show js ("</td>") ++ Z = ('<' :: js ("/td>")) ++ Z from rfl]
  rw [uptoLitCI_at_lit]
  simp [List.append_assoc]

lemma dropWs_js_td (Y : JsStr) : List.dropWhile isJsWs (js ("<td>") ++ Y) = js ("<td>") ++ Y :=
  dropWhile_head_false _ (fun c hc => by
    rw [show (js ("<td>") ++ Y).head? = some '<' from rfl] at hc
    cases hc
    decide)

lemma dropWs_js_trc (Y : JsStr) : List.dropWhile isJsWs (js ("</tr>") ++ Y) = js ("</tr>") ++ Y :=
  dropWhile_head_false _ (fun c hc => by
    rw [show (js ("</tr>") ++ Y).head? = some '<' from rfl] at hc
    cases hc
    decide)

lemma skipToGt_js_gt (Y : JsStr) : skipToGt (js (">") ++ Y) = some Y := rfl

lemma split_span_pass (W : JsStr) : js ("<span class=\"badge pass\">") ++ W =
    js ("<span") ++ (js (" class=\"badge pass\"") ++ ('>' :: W)) := by
  simp [js, List.append_assoc]

lemma split_span_fail (W : JsStr) : js ("<span class=\"badge fail\">") ++ W =
    js ("<span") ++ (js (" class=\"badge fail\"") ++ ('>' :: W)) := by
  simp [js, List.append_assoc]

lemma matchRowAt_clickable (r : FolderRow) (t : JsStr)
    (hnl : ∀ c ∈ r.pretty, isNL c = false) (hp : r.pass < 1000) (hf : r.fail < 1000)
    (ht : r.total < 1000) (hpct : r.passPct < 1000) :
    matchRowAt (clickableTr r ++ t) =
      some (⟨cellC3 r, r.pass, r.fail, r.total, r.passPct, r.avgMs⟩, t) := by
  unfold matchRowAt clickableTr
  simp only [List.append_assoc]
  rw [stripPrefixCI_self]
  dsimp only
  rw [skipToGt_append_no_gt _ _ (by decide),
    skipToGt_append_no_gt _ _ (idfy_no_gt r.group),
    skipToGt_append_no_gt _ _ (by decide),
    skipToGt_append_no_gt _ _ (esc_no_gt r.group),
    skipToGt_append_no_gt _ _ (by decide),
    skipToGt_js_gt]
  dsimp only
  rw [dropWhile_append_all _ _ (by decide), dropWs_js_td]
  rw [stripPrefixCI_self]
  dsimp only
  rw [uptoLit_td_first_cell r.pretty r.apis.length hnl]
  dsimp only
  rw [dropWhile_append_all _ _ (by decide), dropWs_js_td]
  rw [split_span_pass, matchNumCell_span _ (by decide) r.pass hp]
  dsimp only
  rw [dropWhile_append_all _ _ (by decide), dropWs_js_td]
  rw [split_span_fail, matchNumCell_span _ (by decide) r.fail hf]
  dsimp only
  rw [dropWhile_append_all _ _ (by decide), dropWs_js_td]
  rw [matchPlainNumCell_render r.total ht]
  dsimp only
  rw [dropWhile_append_all _ _ (by decide), dropWs_js_td]
  rw [matchPctCell_render r.passPct hpct]
  dsimp only
  rw [dropWhile_append_all _ _ (by decide), dropWs_js_td]
  rw [matchAvgCell_render r.avgMs]
  dsimp only
  rw [dropWhile_append_all _ _ (by decide), dropWs_js_trc]
  rw [stripPrefixCI_self]
  dsimp only
  rfl

lemma stripPrefixCI_length (lit : JsStr) : ∀ (s r : JsStr), stripPrefixCI lit s = some r →
    r.length + lit.length = s.length := by
  induction lit with
  | nil =>
    intro s r h
    cases s <;> (simp [stripPrefixCI] at h; subst h; simp)
  | cons l ls ih =>
    intro s r h
    cases s with
    | nil => simp [stripPrefixCI] at h
    | cons c cs =>
      unfold stripPrefixCI at h
      by_cases hc : lowerA c = lowerA l
      · rw [if_pos hc] at h
        have := ih cs r h
        simp only [List.length_cons]
        omega
      · rw [if_neg hc] at h
        exact absurd h (by simp)

lemma skipToGt_lt (s : JsStr) : ∀ r, skipToGt s = some r → r.length < s.length := by
  induction s with
  | nil => intro r h; simp [skipToGt] at h
  | cons c cs ih =>
    intro r h
    unfold skipToGt at h
    by_cases hc : c = '>'
    · rw [if_pos hc] at h
      cases h
      simp
    · rw [if_neg hc] at h
      have := ih r h
      simp only [List.length_cons]
      omega

lemma dropWhile_length_le (p : Char → Bool) (l : JsStr) :
    (l.dropWhile p).length ≤ l.length := by
  induction l with
  | nil => simp
  | cons c cs ih =>
    by_cases hc : p c
    · rw [List.dropWhile_cons_of_pos hc]
      simp only [List.length_cons]
      omega
    · rw [List.dropWhile_cons_of_neg hc]

lemma uptoLitCI_le (lit : JsStr) : ∀ (s cap r : JsStr), uptoLitCI lit s = some (cap, r) →
    r.length ≤ s.length := by
  intro s
  induction s with
  | nil =>
    intro cap r h
    unfold uptoLitCI at h
    cases hs : stripPrefixCI lit [] with
    | none => rw [hs] at h; simp at h
    | some r2 =>
      rw [hs] at h
      simp at h
      obtain ⟨h1, h2⟩ := h
      subst h2
      have := stripPrefixCI_length lit [] r2 hs
      simp only [List.length_nil] at this ⊢
      omega
  | cons c cs ih =>
    intro cap r h
    unfold uptoLitCI at h
    cases hs : stripPrefixCI lit (c :: cs) with
    | some r2 =>
      rw [hs] at h
      simp at h
      obtain ⟨h1, h2⟩ := h
      subst h2
      have := stripPrefixCI_length lit (c :: cs) r2 hs
      omega
    | none =>
      rw [hs] at h
      by_cases hnl : isNL c
      · rw [if_pos hnl] at h
        simp at h
      · rw [if_neg hnl] at h
        cases hu : uptoLitCI lit cs with
        | none => rw [hu] at h; simp at h
        | some pr =>
          rw [hu] at h
          simp at h
          obtain ⟨h1, h2⟩ := h
          subst h2
          have := ih pr.1 pr.2 (by rw [hu])
          simp only [List.length_cons]
          omega

lemma takeDigits1_le (s ds r : JsStr) (h : takeDigits1 s = some (ds, r)) :
    r.length ≤ s.length := by
  unfold takeDigits1 at h
  by_cases he : (s.takeWhile isDig).isEmpty
  · rw [if_pos he] at h; simp at h
  · rw [if_neg he] at h
    simp at h
    obtain ⟨h1, h2⟩ := h
    subst h2
    exact dropWhile_length_le _ _

lemma takeNumClass1_le (s ds r : JsStr) (h : takeNumClass1 s = some (ds, r)) :
    r.length ≤ s.length := by
  unfold takeNumClass1 at h
  by_cases he : (s.takeWhile isNumClass).isEmpty
  · rw [if_pos he] at h; simp at h
  · rw [if_neg he] at h
    simp at h
    obtain ⟨h1, h2⟩ := h
    subst h2
    exact dropWhile_length_le _ _

lemma skipOptSpanOpen_le (s : JsStr) : (skipOptSpanOpen s).length ≤ s.length := by
  unfold skipOptSpanOpen
  cases hs : stripPrefixCI (js ("<span")) s with
  | none => exact le_refl _
  | some r =>
    dsimp only
    cases hg : skipToGt r with
    | none => exact le_refl _
    | some r2 =>
      dsimp only
      have h1 := stripPrefixCI_length _ s r hs
      have h2 := skipToGt_lt r r2 hg
      omega

lemma skipOptSpanClose_le (s : JsStr) : (skipOptSpanClose s).length ≤ s.length := by
  unfold skipOptSpanClose
  cases hs : stripPrefixCI (js ("</span>")) s with
  | none => exact le_refl _
  | some r =>
    dsimp only
    have h1 := stripPrefixCI_length _ s r hs
    omega

lemma matchNumCell_le (s : JsStr) (n : Nat) (r : JsStr) (h : matchNumCell s = some (n, r)) :
    r.length ≤ s.length := by
  unfold matchNumCell at h
  split at h
  · simp at h
  next r1 h1 =>
    split at h
    · simp at h
    next r2 h2 =>
      split at h
      · simp at h
      next ds r3 h3 =>
        split at h
        next r4 h4 =>
          simp at h
          obtain ⟨hn, hr⟩ := h
          subst hr
          have a1 := stripPrefixCI_length _ s r1 h1
          have a2 := skipToGt_lt r1 r2 h2
          have a3 := skipOptSpanOpen_le r2
          have a4 := takeDigits1_le _ ds r3 h3
          have a5 := skipOptSpanClose_le r3
          have a6 := stripPrefixCI_length _ _ r4 h4
          omega
        · simp at h

lemma matchPlainNumCell_le (s : JsStr) (n : Nat) (r : JsStr)
    (h : matchPlainNumCell s = some (n, r)) : r.length ≤ s.length := by
  unfold matchPlainNumCell at h
  split at h
  · simp at h
  next r1 h1 =>
    split at h
    · simp at h
    next r2 h2 =>
      split at h
      · simp at h
      next ds r3 h3 =>
        split at h
        next r4 h4 =>
          simp at h
          obtain ⟨hn, hr⟩ := h
          subst hr
          have a1 := stripPrefixCI_length _ s r1 h1
          have a2 := skipToGt_lt r1 r2 h2
          have a3 := takeDigits1_le _ ds r3 h3
          have a4 := stripPrefixCI_length _ _ r4 h4
          omega
        · simp at h

lemma matchAvgCell_le (s : JsStr) (n : Nat) (r : JsStr)
    (h : matchAvgCell s = some (n, r)) : r.length ≤ s.length := by
  unfold matchAvgCell at h
  split at h
  · simp at h
  next r1 h1 =>
    split at h
    · simp at h
    next r2 h2 =>
      split at h
      · simp at h
      next cap r3 h3 =>
        split at h
        next r4 h4 =>
          simp at h
          obtain ⟨hn, hr⟩ := h
          subst hr
          have a1 := stripPrefixCI_length _ s r1 h1
          have a2 := skipToGt_lt r1 r2 h2
          have a3 := takeNumClass1_le _ cap r3 h3
          have a4 := stripPrefixCI_length _ _ r4 h4
          have a5 := dropWhile_length_le isJsWs r3
          omega
        · simp at h

lemma pctFrac_le (r3 : JsStr) : (pctFrac r3).length ≤ r3.length := by
  unfold pctFrac
  split
  next rest =>
    split
    next b rr h =>
      have := takeDigits1_le rest b rr h
      simp only [List.length_cons]
      omega
    next => exact le_refl _
  next => exact le_refl _

lemma pctPercent_le (r5 : JsStr) : (pctPercent r5).length ≤ r5.length := by
  unfold pctPercent
  split
  next rr =>
    simp only [List.length_cons]
    omega
  next => exact le_refl _

lemma matchPctCell_le (s : JsStr) (n : Nat) (r : JsStr)
    (h : matchPctCell s = some (n, r)) : r.length ≤ s.length := by
  unfold matchPctCell at h
  split at h
  · simp at h
  next r1 h1 =>
    split at h
    · simp at h
    next r2 h2 =>
      split at h
      · simp at h
      next ds r3 h3 =>
        split at h
        next r7 h7 =>
          simp at h
          obtain ⟨hn, hr⟩ := h
          subst hr
          have a1 := stripPrefixCI_length _ s r1 h1
          have a2 := skipToGt_lt r1 r2 h2
          have a3 := takeDigits1_le _ ds r3 h3
          have a4 := pctFrac_le r3
          have a5 := dropWhile_length_le isJsWs (pctFrac r3)
          have a6 := pctPercent_le ((pctFrac r3).dropWhile isJsWs)
          have a7 := dropWhile_length_le isJsWs (pctPercent ((pctFrac r3).dropWhile isJsWs))
          have a8 := stripPrefixCI_length _ _ r7 h7
          omega
        · simp at h

lemma matchRowAt_lt (s : JsStr) (m : CellsMatch) (rest : JsStr)
    (h : matchRowAt s = some (m, rest)) : rest.length < s.length := by
  unfold matchRowAt at h
  split at h
  · simp at h
  next r1 h1 =>
    split at h
    · simp at h
    next r2 h2 =>
      split at h
      · simp at h
      next r3 h3 =>
        split at h
        · simp at h
        next cell r4 h4 =>
          split at h
          · simp at h
          next p r5 h5 =>
            split at h
            · simp at h
            next f r6 h6 =>
              split at h
              · simp at h
              next tot r7 h7 =>
                split at h
                · simp at h
                next pct r8 h8 =>
                  split at h
                  · simp at h
                  next avg r9 h9 =>
                    split at h
                    · simp at h
                    next r10 h10 =>
                      simp at h
                      obtain ⟨hm, hr⟩ := h
                      subst hr
                      have a1 := stripPrefixCI_length _ s r1 h1
                      have a2 := skipToGt_lt r1 r2 h2
                      have b2 := dropWhile_length_le isJsWs r2
                      have a3 := stripPrefixCI_length _ _ r3 h3
                      have a4 := uptoLitCI_le _ r3 cell r4 h4
                      have b4 := dropWhile_length_le isJsWs r4
                      have a5 := matchNumCell_le _ p r5 h5
                      have b5 := dropWhile_length_le isJsWs r5
                      have a6 := matchNumCell_le _ f r6 h6
                      have b6 := dropWhile_length_le isJsWs r6
                      have a7 := matchPlainNumCell_le _ tot r7 h7
                      have b7 := dropWhile_length_le isJsWs r7
                      have a8 := matchPctCell_le _ pct r8 h8
                      have b8 := dropWhile_length_le isJsWs r8
                      have a9 := matchAvgCell_le _ avg r9 h9
                      have b9 := dropWhile_length_le isJsWs r9
                      have a10 := stripPrefixCI_length _ _ r10 h10
                      omega

lemma matchRowAt_nil : matchRowAt [] = none := rfl

lemma scanRowsFuel_succ (f : Nat) (s : JsStr) :
    scanRowsFuel (f + 1) s =
      (match matchRowAt s with
       | some (m, rest) => m :: scanRowsFuel f rest
       | none =>
         (match s with
          | [] => []
          | _ :: cs => scanRowsFuel f cs)) := rfl

lemma scanRowsFuel_nil (f : Nat) : scanRowsFuel f [] = [] := by
  cases f with
  | zero => rfl
  | succ f => rfl

lemma scanRowsFuel_irrel : ∀ (f g : Nat) (s : JsStr), s.length ≤ f → s.length ≤ g →
    scanRowsFuel f s = scanRowsFuel g s := by
  intro f
  induction f with
  | zero =>
    intro g s hf hg
    have hs : s = [] := List.length_eq_zero.mp (Nat.le_zero.mp hf)
    subst hs
    rw [scanRowsFuel_nil, scanRowsFuel_nil]
  | succ f ih =>
    intro g s hf hg
    cases g with
    | zero =>
      have hs : s = [] := List.length_eq_zero.mp (Nat.le_zero.mp hg)
      subst hs
      rw [scanRowsFuel_nil, scanRowsFuel_nil]
    | succ g =>
      rw [scanRowsFuel_succ f s, scanRowsFuel_succ g s]
      cases hm : matchRowAt s with
      | some pr =>
        obtain ⟨m, rest⟩ := pr
        have hlt := matchRowAt_lt s m rest hm
        dsimp only
        rw [ih g rest (by omega) (by omega)]
      | none =>
        dsimp only
        cases s with
        | nil => rfl
        | cons c cs =>
          simp only [List.length_cons] at hf hg
          exact ih g cs (by omega) (by omega)

lemma scanRows_nil : scanRows [] = [] := rfl

lemma scanRows_cons_some (s : JsStr) (m : CellsMatch) (rest : JsStr)
    (h : matchRowAt s = some (m, rest)) : scanRows s = m :: scanRows rest := by
  have hlt := matchRowAt_lt s m rest h
  unfold scanRows
  cases hs : s.length with
  | zero => omega
  | succ k =>
    rw [scanRowsFuel_succ k s, h]
    dsimp only
    rw [scanRowsFuel_irrel k rest.length rest (by omega) (le_refl _)]

lemma scanRows_cons_none (c : Char) (cs : JsStr) (h : matchRowAt (c :: cs) = none) :
    scanRows (c :: cs) = scanRows cs := by
  unfold scanRows
  simp only [List.length_cons]
  rw [scanRowsFuel_succ cs.length (c :: cs), h]

lemma matchRowAt_not_lt (c : Char) (cs : JsStr) (h : c ≠ '<') :
    matchRowAt (c :: cs) = none := by
  unfold matchRowAt
  have hs : stripPrefixCI (js ("<tr")) (c :: cs) = none := by
    rw [show js ("<tr") = '<' :: js ("tr") from rfl]
    exact stripPrefixCI_cons_none '<' c (js ("tr")) cs (lowerA_ne_lt c h)
  rw [hs]

lemma matchRowAt_lt_not_t (c : Char) (cs : JsStr) (h : lowerA c ≠ 't') :
    matchRowAt ('<' :: c :: cs) = none := by
  unfold matchRowAt
  have hs : stripPrefixCI (js ("<tr")) ('<' :: c :: cs) = none := by
    rw [show stripPrefixCI (js ("<tr")) ('<' :: c :: cs) =
        stripPrefixCI ('t' :: js ("r")) (c :: cs) from rfl]
    exact stripPrefixCI_cons_none 't' c (js ("r")) cs h
  rw [hs]

lemma matchRowAt_ltt_not_r (c : Char) (cs : JsStr) (h : lowerA c ≠ 'r') :
    matchRowAt ('<' :: 't' :: c :: cs) = none := by
  unfold matchRowAt
  have hs : stripPrefixCI (js ("<tr")) ('<' :: 't' :: c :: cs) = none := by
    rw [show stripPrefixCI (js ("<tr")) ('<' :: 't' :: c :: cs) =
        stripPrefixCI ('r' :: ([] : JsStr)) (c :: cs) from rfl]
    exact stripPrefixCI_cons_none 'r' c [] cs h
  rw [hs]

lemma scanRows_append_not_lt (a : JsStr) : ∀ (s : JsStr), (∀ c ∈ a, c ≠ '<') →
    scanRows (a ++ s) = scanRows s := by
  induction a with
  | nil => intro s _; rfl
  | cons c t ih =>
    intro s ha
    rw [List.cons_append]
    rw [scanRows_cons_none c (t ++ s) (matchRowAt_not_lt c (t ++ s) (ha c (by simp)))]
    exact ih s (fun d hd => ha d (by simp [hd]))

lemma matchRowAt_subrow_tr (g : JsStr) (X : JsStr) :
    matchRowAt (js ("<tr class=\"subrow\" id=\"sub-folder-") ++ (idfy g ++
      (js ("\" style=\"display:none\">\n              ") ++
       (js ("<td colspan=\"6\">\n                ") ++ X)))) = none := by
  unfold matchRowAt
  rw [show js ("<tr class=\"subrow\" id=\"sub-folder-") =
      js ("<tr") ++ js (" class=\"subrow\" id=\"sub-folder-") from rfl]
  rw [show js ("\" style=\"display:none\">\n              ") ++
        (js ("<td colspan=\"6\">\n                ") ++ X) =
      js ("\" style=\"display:none\"") ++ (js (">") ++ (js ("\n              ") ++
        (js ("<td colspan=\"6\">\n                ") ++ X))) from rfl]
  simp only [List.append_assoc]
  rw [stripPrefixCI_self]
  dsimp only
  rw [skipToGt_append_no_gt _ _ (by decide),
    skipToGt_append_no_gt _ _ (idfy_no_gt g),
    skipToGt_append_no_gt _ _ (by decide),
    skipToGt_js_gt]
  dsimp only
  rw [dropWhile_append_all _ _ (by decide)]
  rw [dropWhile_head_false _ (fun c hc => by
    rw [show (js ("<td colspan=\"6\">\n                ") ++ X).head? = some '<' from rfl] at hc
    cases hc
    rfl)]
  rw [stripPrefixCI_none_of_mismatch (js ("<td>")) (js ("<td colspan=\"6\">\n                "))
    X (by decide)]

lemma scanRows_subrow_tr_skip (g : JsStr) (X : JsStr) :
    scanRows (js ("<tr class=\"subrow\" id=\"sub-folder-") ++ (idfy g ++
      (js ("\" style=\"display:none\">\n              ") ++
       (js ("<td colspan=\"6\">\n                ") ++ X)))) =
    scanRows (js ("<td colspan=\"6\">\n                ") ++ X) := by
  rw [show js ("<tr class=\"subrow\" id=\"sub-folder-") ++ (idfy g ++
      (js ("\" style=\"display:none\">\n              ") ++
       (js ("<td colspan=\"6\">\n                ") ++ X))) =
      '<' :: (js ("tr class=\"subrow\" id=\"sub-folder-") ++ (idfy g ++
      (js ("\" style=\"display:none\">\n              ") ++
       (js ("<td colspan=\"6\">\n                ") ++ X)))) from rfl]
  rw [scanRows_cons_none '<' (js ("tr class=\"subrow\" id=\"sub-folder-") ++ (idfy g ++
      (js ("\" style=\"display:none\">\n              ") ++
       (js ("<td colspan=\"6\">\n                ") ++ X)))) (matchRowAt_subrow_tr g X)]
  rw [scanRows_append_not_lt (js ("tr class=\"subrow\" id=\"sub-folder-")) _ (by decide)]
  rw [scanRows_append_not_lt (idfy g) _ (idfy_no_lt g)]
  rw [scanRows_append_not_lt (js ("\" style=\"display:none\">\n              ")) _ (by decide)]

lemma scanRows_skip_tdcolspan (Y : JsStr) :
    scanRows (js ("<td colspan=\"6\">\n                ") ++ Y) = scanRows Y := by
  rw [show js ("<td colspan=\"6\">\n                ") ++ Y =
      '<' :: (js ("td colspan=\"6\">\n                ") ++ Y) from rfl]
  rw [scanRows_cons_none '<' (js ("td colspan=\"6\">\n                ") ++ Y)
    (matchRowAt_ltt_not_r 'd' (js (" colspan=\"6\">\n                ") ++ Y) (by decide))]
  exact scanRows_append_not_lt (js ("td colspan=\"6\">\n                ")) Y (by decide)

lemma scanRows_skip_div (Y : JsStr) :
    scanRows (js ("<div class=\"expand-card\" id=\"box-folder-") ++ Y) = scanRows Y := by
  rw [show js ("<div class=\"expand-card\" id=\"box-folder-") ++ Y =
      '<' :: (js ("div class=\"expand-card\" id=\"box-folder-") ++ Y) from rfl]
  rw [scanRows_cons_none '<' (js ("div class=\"expand-card\" id=\"box-folder-") ++ Y)
    (matchRowAt_lt_not_t 'd' (js ("iv class=\"expand-card\" id=\"box-folder-") ++ Y) (by decide))]
  exact scanRows_append_not_lt (js ("div class=\"expand-card\" id=\"box-folder-")) Y (by decide)

lemma scanRows_skip_span (Y : JsStr) :
    scanRows (js ("<span class=\"muted\">Loading…") ++ Y) = scanRows Y := by
  rw [show js ("<span class=\"muted\">Loading…") ++ Y =
      '<' :: (js ("span class=\"muted\">Loading…") ++ Y) from rfl]
  rw [scanRows_cons_none '<' (js ("span class=\"muted\">Loading…") ++ Y)
    (matchRowAt_lt_not_t 's' (js ("pan class=\"muted\">Loading…") ++ Y) (by decide))]
  exact scanRows_append_not_lt (js ("span class=\"muted\">Loading…")) Y (by decide)

lemma scanRows_skip_cspan (Y : JsStr) :
    scanRows (js ("</span>\n                ") ++ Y) = scanRows Y := by
  rw [show js ("</span>\n                ") ++ Y =
      '<' :: (js ("/span>\n                ") ++ Y) from rfl]
  rw [scanRows_cons_none '<' (js ("/span>\n                ") ++ Y)
    (matchRowAt_lt_not_t '/' (js ("span>\n                ") ++ Y) (by decide))]
  exact scanRows_append_not_lt (js ("/span>\n                ")) Y (by decide)

lemma scanRows_skip_cdiv (Y : JsStr) :
    scanRows (js ("</div>\n              ") ++ Y) = scanRows Y := by
  rw [show js ("</div>\n              ") ++ Y =
      '<' :: (js ("/div>\n              ") ++ Y) from rfl]
  rw [scanRows_cons_none '<' (js ("/div>\n              ") ++ Y)
    (matchRowAt_lt_not_t '/' (js ("div>\n              ") ++ Y) (by decide))]
  exact scanRows_append_not_lt (js ("/div>\n              ")) Y (by decide)

lemma scanRows_skip_ctd (Y : JsStr) :
    scanRows (js ("</td>\n            ") ++ Y) = scanRows Y := by
  rw [show js ("</td>\n            ") ++ Y =
      '<' :: (js ("/td>\n            ") ++ Y) from rfl]
  rw [scanRows_cons_none '<' (js ("/td>\n            ") ++ Y)
    (matchRowAt_lt_not_t '/' (js ("td>\n            ") ++ Y) (by decide))]
  exact scanRows_append_not_lt (js ("/td>\n            ")) Y (by decide)

lemma scanRows_skip_ctr (Y : JsStr) :
    scanRows (js ("</tr>") ++ Y) = scanRows Y := by
  rw [show js ("</tr>") ++ Y = '<' :: (js ("/tr>") ++ Y) from rfl]
  rw [scanRows_cons_none '<' (js ("/tr>") ++ Y)
    (matchRowAt_lt_not_t '/' (js ("tr>") ++ Y) (by decide))]
  exact scanRows_append_not_lt (js ("/tr>")) Y (by decide)

lemma scanRows_subrow (r : FolderRow) (T : JsStr) :
    scanRows (subrowTr r ++ T) = scanRows T := by
  unfold subrowTr
  simp only [List.append_assoc]
  rw [scanRows_append_not_lt (js ("\n            ")) _ (by decide)]
  rw [scanRows_subrow_tr_skip r.group]
  rw [scanRows_skip_tdcolspan]
  rw [scanRows_skip_div]
  rw [scanRows_append_not_lt (idfy r.group) _ (idfy_no_lt r.group)]
  rw [scanRows_append_not_lt (js ("\">\n                  ")) _ (by decide)]
  rw [scanRows_skip_span]
  rw [scanRows_skip_cspan]
  rw [scanRows_skip_cdiv]
  rw [scanRows_skip_ctd]
  rw [scanRows_skip_ctr]

lemma scanRows_tbody (rows : List FolderRow)
    (h : ∀ r ∈ rows, (∀ c ∈ r.pretty, isNL c = false) ∧
      r.pass < 1000 ∧ r.fail < 1000 ∧ r.total < 1000 ∧ r.passPct < 1000) :
    scanRows (renderFolderTbody rows) = rows.map cellsOfRow := by
  induction rows with
  | nil => rfl
  | cons r rs ih =>
    unfold renderFolderTbody
    simp only [List.map_cons, List.flatten_cons]
    rw [show renderFolderRowTr r = js ("\n            ") ++ (clickableTr r ++ subrowTr r)
      from by unfold renderFolderRowTr; simp [List.append_assoc]]
    simp only [List.append_assoc]
    rw [scanRows_append_not_lt (js ("\n            ")) _ (by decide)]
    obtain ⟨hnl, hp, hf, ht, hpct⟩ := h r (by simp)
    rw [scanRows_cons_some _ _ _ (matchRowAt_clickable r
      (subrowTr r ++ (rs.map renderFolderRowTr).flatten) hnl hp hf ht hpct)]
    rw [scanRows_subrow]
    have := ih (fun q hq => h q (by simp [hq]))
    unfold renderFolderTbody at this
    rw [this]
    rfl

set_option maxRecDepth 4000 in
/-- C3 (counterexample): for the single displayed folder row with 1000 cases
(1000 passing), the builder renders the pass and total cells as the
`toLocaleString` text `1,000`, which the aggregator's `(\d+)` cell patterns
do not match, so the row extraction recovers no row at all for that folder —
refuting the claimed one-row-per-folder numeric round-trip. -/
theorem C3_counterexample :
    ¬ ((parseSuiteRowsModel (js ("P")) (js ("M")) (renderFolderTbody [cexRowC3])).map rowNums =
       [cexRowC3].map folderRowNums) := by decide

/-- C3 (amended): for every displayed folder-row list in which each row's
pass, fail, total and pass-percent counts are below 1000 (so `toLocaleString`
inserts no thousands separator) and each row's display name contains no line
terminator, the aggregator's row extraction applied to the rendered
folder-summary table body recovers exactly one row per displayed folder,
carrying that folder's five numeric summary fields (pass, fail, total,
pass-rate percent, average response ms). -/
theorem C3_amended_roundtrip (parent moduleKey : JsStr) (rows : List FolderRow)
    (h : ∀ r ∈ rows, (∀ c ∈ r.pretty, isNL c = false) ∧
      r.pass < 1000 ∧ r.fail < 1000 ∧ r.total < 1000 ∧ r.passPct < 1000) :
    parseSuiteRowsModel parent moduleKey (renderFolderTbody rows) =
      rows.map (fun r =>
        ⟨parent, moduleKey, cellC3 r, r.pass, r.fail, r.total, r.passPct, r.avgMs⟩) := by
  unfold parseSuiteRowsModel
  rw [scanRows_tbody rows h, List.map_map]
  rfl

set_option maxRecDepth 4000 in
/-- C3 witness: the amended round-trip applied to one concrete folder row
(5 cases, 3 pass, 2 fail, 60 %, 1500 ms average). -/
theorem C3_roundtrip_witness :
    parseSuiteRowsModel (js ("P")) (js ("M")) (renderFolderTbody [smallRowC3]) =
      [smallRowC3].map (fun r =>
        ⟨js ("P"), js ("M"), cellC3 r, r.pass, r.fail, r.total, r.passPct, r.avgMs⟩) :=
  C3_amended_roundtrip (js ("P")) (js ("M")) [smallRowC3] (by decide)
